import Mathlib

/-!
# sysmon: metric sampling, rate computation and interface selection

A shallow embedding of `sysmon.go`.

* `uint64` values are natural numbers; every `uint64` operation of the source is
  written with an explicit reduction modulo `2 ^ 64`.
* `float64` values are modelled by `F64`: a finite value is the rational number it
  denotes, and every arithmetic operation rounds its exact result to the nearest
  binary64 value, ties to even (`f64round`).  The two signed zeros are identified;
  the program never produces a negative float in the code modelled here.
* Go strings are lists of characters (the text sources are valid UTF-8).
* A file read is an `Option`: `none` is a failed `os.ReadFile`.
* `int` is the 64-bit integer type; `strconv.ParseFloat` and the result of an
  out-of-range `int(x)` are parameters of `getUptime`.
* The monitoring loop and the request handlers run concurrently and the program
  orders them with no lock (only `currentSelectedInterface` has a mutex of its own):
  a schedule interleaves ticks with the single statements of the handlers that
  write shared state (`Action`, `act`, `exec`).  `switchInterface` is the handler
  run with nothing in between (`exec_handler_alone`).
-/

namespace Sysmon

/-! ## float64 -/

/-- Number of binary digits of `n` minus one, by halving (`fuel` bounds the depth). -/
def log2Aux : Nat → Nat → Nat
  | 0, _ => 0
  | fuel + 1, n => if n < 2 then 0 else log2Aux fuel (n / 2) + 1

/-- Floor of the binary logarithm of a natural number (`0` at `0`). -/
def natLog2 (n : Nat) : Nat := log2Aux n n

/-- Binary exponent of a non-zero rational: the `e` with `2 ^ e ≤ |q| < 2 ^ (e + 1)`. -/
def binExp (q : ℚ) : ℤ :=
  let k : ℤ := (natLog2 q.num.natAbs : ℤ) - (natLog2 q.den : ℤ)
  if (2 : ℚ) ^ k ≤ |q| then k else k - 1

/-- Rounding of a rational to the nearest integer, ties to the even one. -/
def roundHalfEven (x : ℚ) : ℤ :=
  let f := ⌊x⌋
  if x - f < 1 / 2 then f
  else if 1 / 2 < x - f then f + 1
  else if f % 2 = 0 then f else f + 1

/-- Values of Go's `float64`. -/
inductive F64 where
  | fin (q : ℚ)
  | inf (neg : Bool)
  | nan
  deriving DecidableEq

/-- Spacing of the binary64 values around `q`: 53 significant bits, with the
exponent bounded below by the subnormal range. -/
def f64ulp (q : ℚ) : ℚ := (2 : ℚ) ^ (max (binExp q) (-1022) - 52)

/-- Nearest multiple of the binary64 spacing around `q`, ties to even. -/
def f64roundQ (q : ℚ) : ℚ := (roundHalfEven (q / f64ulp q) : ℚ) * f64ulp q

/-- Rounding of an exact result to binary64 (IEEE 754 round-to-nearest-even). -/
def f64round (q : ℚ) : F64 :=
  if q = 0 then F64.fin 0
  else if (2 : ℚ) ^ (1024 : ℕ) ≤ |f64roundQ q| then F64.inf (decide (q < 0))
  else F64.fin (f64roundQ q)

namespace F64

/-- Conversion `float64(n)` of an unsigned integer. -/
def ofNat (n : Nat) : F64 := f64round (n : ℚ)

/-- Conversion `float64(i)` of a signed integer. -/
def ofInt (i : ℤ) : F64 := f64round (i : ℚ)

/-- The float64 sum `a + b`. -/
def add : F64 → F64 → F64
  | nan, _ => nan
  | _, nan => nan
  | inf s, inf t => if s = t then inf s else nan
  | inf s, fin _ => inf s
  | fin _, inf t => inf t
  | fin a, fin b => f64round (a + b)

/-- The float64 product `a * b`. -/
def mul : F64 → F64 → F64
  | nan, _ => nan
  | _, nan => nan
  | inf s, inf t => inf (s != t)
  | inf s, fin b => if b = 0 then nan else inf (s != decide (b < 0))
  | fin a, inf t => if a = 0 then nan else inf (decide (a < 0) != t)
  | fin a, fin b => f64round (a * b)

/-- The float64 quotient `a / b`: `x / 0` is an infinity, `0 / 0` is NaN. -/
def div : F64 → F64 → F64
  | nan, _ => nan
  | _, nan => nan
  | inf _, inf _ => nan
  | inf s, fin b => inf (s != decide (b < 0))
  | fin _, inf _ => fin 0
  | fin a, fin b =>
    if b = 0 then (if a = 0 then nan else inf (decide (a < 0)))
    else f64round (a / b)

/-- The comparison `a <= b` of Go (false when either side is NaN). -/
def le : F64 → F64 → Bool
  | nan, _ => false
  | _, nan => false
  | inf s, inf t => s || !t
  | inf s, fin _ => s
  | fin _, inf t => !t
  | fin a, fin b => decide (a ≤ b)

/-- The comparison `a < b` of Go (false when either side is NaN). -/
def lt : F64 → F64 → Bool
  | nan, _ => false
  | _, nan => false
  | inf s, inf t => s && !t
  | inf s, fin _ => s
  | fin _, inf t => !t
  | fin a, fin b => decide (a < b)

end F64

/-! ## uint64 arithmetic -/

/-- The `uint64` sum `a + b`. -/
def addU64 (a b : Nat) : Nat := (a + b) % 2 ^ 64

/-- The `uint64` difference `a - b`, wrapping around below zero. -/
def subU64 (a b : Nat) : Nat := (a + (2 ^ 64 - b % 2 ^ 64)) % 2 ^ 64

/-! ## Data model -/

/-- CPU tick counters (`CPUStat`). -/
structure CPUStat where
  User : Nat
  Nice : Nat
  System : Nat
  Idle : Nat
  Iowait : Nat
  Irq : Nat
  Softirq : Nat
  deriving DecidableEq

/-- Configuration (`Config`); `Interval` is a `time.Duration`, in nanoseconds. -/
structure Config where
  Interface : List Char
  Port : Int
  Interval : Int
  deriving DecidableEq

/-- The sampler and its baseline (`Monitor`). -/
structure Monitor where
  config : Config
  prevNetRx : Nat
  prevNetTx : Nat
  prevCPUStat : CPUStat
  deriving DecidableEq

/-! ## Sampler arithmetic -/

/-- Go's `time.Duration.Seconds`: `float64(d / Second) + float64(d % Second) / 1e9`,
with the truncating integer division of Go. -/
def durationSeconds (d : Int) : F64 :=
  F64.add (F64.ofInt (Int.tdiv d 1000000000))
    (F64.div (F64.ofInt (Int.tmod d 1000000000)) (F64.fin 1000000000))

/-- The rate expression of `collectStats`:
`float64(curr - prev) / 1024 / m.config.Interval.Seconds()` with `uint64` operands. -/
def netRate (prev curr : Nat) (interval : Int) : F64 :=
  F64.div (F64.div (F64.ofNat (subU64 curr prev)) (F64.fin 1024)) (durationSeconds interval)

/-- The sum of the seven tick counters, in `uint64`. -/
def cpuTotal (s : CPUStat) : Nat :=
  addU64 (addU64 (addU64 (addU64 (addU64 (addU64 s.User s.Nice) s.System) s.Idle) s.Iowait)
    s.Irq) s.Softirq

/-- The sum `Idle + Iowait`, in `uint64`. -/
def cpuIdle (s : CPUStat) : Nat := addU64 s.Idle s.Iowait

/-- The function `calculateCPUUsage`. -/
def calculateCPUUsage (prev curr : CPUStat) : F64 :=
  let prevTotal := cpuTotal prev
  let currTotal := cpuTotal curr
  let prevIdle := cpuIdle prev
  let currIdle := cpuIdle curr
  let totalDiff := subU64 currTotal prevTotal
  let idleDiff := subU64 currIdle prevIdle
  if totalDiff = 0 then F64.fin 0
  else F64.div (F64.mul (F64.ofNat (subU64 totalDiff idleDiff)) (F64.fin 100))
    (F64.ofNat totalDiff)

/-! ## Go string functions -/

/-- Go's `unicode.IsSpace`. -/
def isSpace (c : Char) : Bool :=
  let n := c.toNat
  n = 9 || n = 10 || n = 11 || n = 12 || n = 13 || n = 32 || n = 0x85 || n = 0xA0 ||
    n = 0x1680 || (0x2000 ≤ n && n ≤ 0x200A) || n = 0x2028 || n = 0x2029 || n = 0x202F ||
    n = 0x205F || n = 0x3000

/-- Go's `strings.TrimSpace`. -/
def trimSpace (s : List Char) : List Char :=
  ((s.dropWhile isSpace).reverse.dropWhile isSpace).reverse

/-- Worker of `fields`: `cur` holds the field being read, reversed. -/
def fieldsAux : List Char → List Char → List (List Char)
  | cur, [] => if cur = [] then [] else [cur.reverse]
  | cur, c :: cs =>
    if isSpace c then
      (if cur = [] then fieldsAux [] cs else cur.reverse :: fieldsAux [] cs)
    else fieldsAux (c :: cur) cs

/-- Go's `strings.Fields`: the maximal runs of non-space characters. -/
def fields (s : List Char) : List (List Char) := fieldsAux [] s

/-- Go's `strings.Split(s, sep)` for a one-character separator. -/
def split (sep : Char) : List Char → List (List Char)
  | [] => [[]]
  | c :: cs =>
    if c = sep then [] :: split sep cs
    else
      match split sep cs with
      | [] => [[c]]
      | h :: t => (c :: h) :: t

/-- Go's `strings.HasPrefix`. -/
def hasPrefix (s p : List Char) : Bool := p.isPrefixOf s

/-- Go's `strings.Contains`. -/
def contains : List Char → List Char → Bool
  | [], sub => sub.isEmpty
  | c :: cs, sub => sub.isPrefixOf (c :: cs) || contains cs sub

/-- Digit loop of `strconv.ParseUint(s, 10, 64)`; the flag is `err == nil`.  A
character that is not a decimal digit is a syntax error (value `0`); a value that
leaves 64 bits is a range error (value `2 ^ 64 - 1`). -/
def parseUintLoop : List Char → Nat → Nat × Bool
  | [], n => (n, true)
  | c :: cs, n =>
    if 48 ≤ c.toNat ∧ c.toNat ≤ 57 then
      if (2 ^ 64 - 1) / 10 + 1 ≤ n then (2 ^ 64 - 1, false)
      else if 2 ^ 64 - 1 < n * 10 + (c.toNat - 48) then (2 ^ 64 - 1, false)
      else parseUintLoop cs (n * 10 + (c.toNat - 48))
    else (0, false)

/-- Go's `strconv.ParseUint(s, 10, 64)`: the value and whether `err == nil`. -/
def parseUint (s : List Char) : Nat × Bool :=
  if s = [] then (0, false) else parseUintLoop s 0

/-! ## Counter reader -/

/-- Loop body of `getAvailableInterfaces` on one line: the name it appends, if any. -/
def interfaceOfLine (line : List Char) : Option (List Char) :=
  if trimSpace line = [] then none
  else
    let parts := split ':' line
    if 2 ≤ parts.length then
      let intf := trimSpace (parts.headD [])
      if intf ≠ "lo".toList then some intf else none
    else none

/-- The function `getAvailableInterfaces`; the argument is the result of reading
`/proc/net/dev`. -/
def getAvailableInterfaces (data : Option (List Char)) : List (List Char) :=
  match data with
  | none => []
  | some s => ((split '\n' s).drop 2).filterMap interfaceOfLine

/-- Line loop of `getNetworkStats`. -/
def getNetworkStatsLines (iface : List Char) : List (List Char) → Nat × Nat
  | [] => (0, 0)
  | line :: rest =>
    if contains line (iface ++ [':']) then
      let fs := fields line
      if 10 ≤ fs.length then ((parseUint (fs.getD 1 [])).1, (parseUint (fs.getD 9 [])).1)
      else getNetworkStatsLines iface rest
    else getNetworkStatsLines iface rest

/-- The function `getNetworkStats` for the configured interface `iface`; the
argument `data` is the result of reading `/proc/net/dev`. -/
def getNetworkStats (iface : List Char) (data : Option (List Char)) : Nat × Nat :=
  match data with
  | none => (0, 0)
  | some s => getNetworkStatsLines iface (split '\n' s)

/-- Line loop of `getCPUStats`. -/
def getCPUStatsLines : List (List Char) → CPUStat
  | [] => ⟨0, 0, 0, 0, 0, 0, 0⟩
  | line :: rest =>
    if hasPrefix line "cpu ".toList then
      let fs := fields line
      if 8 ≤ fs.length then
        { User := (parseUint (fs.getD 1 [])).1
          Nice := (parseUint (fs.getD 2 [])).1
          System := (parseUint (fs.getD 3 [])).1
          Idle := (parseUint (fs.getD 4 [])).1
          Iowait := (parseUint (fs.getD 5 [])).1
          Irq := (parseUint (fs.getD 6 [])).1
          Softirq := (parseUint (fs.getD 7 [])).1 }
      else getCPUStatsLines rest
    else getCPUStatsLines rest

/-- The function `getCPUStats`; the argument is the result of reading `/proc/stat`. -/
def getCPUStats (data : Option (List Char)) : CPUStat :=
  match data with
  | none => ⟨0, 0, 0, 0, 0, 0, 0⟩
  | some s => getCPUStatsLines (split '\n' s)

/-! ## Sampler state -/

/-- The text sources read during one tick. -/
structure Sources where
  netDev : Option (List Char)
  stat : Option (List Char)

/-- The derived values of one tick, before `collectStats` formats them. -/
structure Rates where
  receiveSpeed : F64
  transmitSpeed : F64
  cpuUsage : F64
  currNetRx : Nat
  currNetTx : Nat

/-- The function `initStats`. -/
def initStats (m : Monitor) (src : Sources) : Monitor :=
  let net := getNetworkStats m.config.Interface src.netDev
  { m with prevNetRx := net.1, prevNetTx := net.2, prevCPUStat := getCPUStats src.stat }

/-- The sampling part of `collectStats`: the rates of this tick and the monitor
with its baseline replaced by the current read. -/
def collectStats (m : Monitor) (src : Sources) : Monitor × Rates :=
  let net := getNetworkStats m.config.Interface src.netDev
  let currCPUStat := getCPUStats src.stat
  let receiveSpeed := netRate m.prevNetRx net.1 m.config.Interval
  let transmitSpeed := netRate m.prevNetTx net.2 m.config.Interval
  let cpuUsage := calculateCPUUsage m.prevCPUStat currCPUStat
  ({ m with prevNetRx := net.1, prevNetTx := net.2, prevCPUStat := currCPUStat },
   { receiveSpeed := receiveSpeed, transmitSpeed := transmitSpeed, cpuUsage := cpuUsage,
     currNetRx := net.1, currNetTx := net.2 })

/-! ## Interface registry and the switch-interface handler -/

/-- The enhanced monitor (`EnhancedMonitor`) without its published snapshot. -/
structure EnhancedMonitor where
  config : Config
  monitor : Monitor
  deriving DecidableEq

/-- Process state: the enhanced monitor and the global `currentSelectedInterface`. -/
structure State where
  em : EnhancedMonitor
  currentSelectedInterface : List Char
  deriving DecidableEq

/-- The function `setSelectedInterface`. -/
def setSelectedInterface (s : State) (interfaceName : List Char) : State :=
  { s with currentSelectedInterface := interfaceName }

/-- The function `getSelectedInterface`. -/
def getSelectedInterface (s : State) : List Char := s.currentSelectedInterface

/-- A request to `/api/switch-interface`: its method and the `interface` field of
its decoded body (`none` when the body is not valid JSON). -/
structure SwitchRequest where
  method : List Char
  body : Option (List Char)

/-- Outcomes of the switch-interface handler. -/
inductive Response where
  | methodNotAllowed
  | invalidJSON
  | interfaceNotFound
  | success
  deriving DecidableEq

/-- HTTP status code of an outcome. -/
def Response.statusCode : Response → Nat
  | Response.methodNotAllowed => 405
  | Response.invalidJSON => 400
  | Response.interfaceNotFound => 400
  | Response.success => 200

/-- The validation loop of the handler. -/
def validInterface (name : List Char) : List (List Char) → Bool
  | [] => false
  | intf :: rest => if intf = name then true else validInterface name rest

/-- The `/api/switch-interface` handler.  `listing` is what `/proc/net/dev` holds
when the handler validates the name, `reading` what it holds when the handler
re-reads the counters. -/
def switchInterface (s : State) (req : SwitchRequest)
    (listing reading : Option (List Char)) : State × Response :=
  if req.method ≠ "POST".toList then (s, Response.methodNotAllowed)
  else
    match req.body with
    | none => (s, Response.invalidJSON)
    | some name =>
      if validInterface name (getAvailableInterfaces listing) then
        let em1 : EnhancedMonitor := { s.em with config := { s.em.config with Interface := name } }
        let em2 : EnhancedMonitor :=
          { em1 with monitor := { em1.monitor with
              config := { em1.monitor.config with Interface := name } } }
        let s3 := setSelectedInterface { s with em := em2 } name
        let net := getNetworkStats s3.em.monitor.config.Interface reading
        ({ s3 with em := { s3.em with monitor :=
            { s3.em.monitor with prevNetRx := net.1, prevNetTx := net.2 } } },
         Response.success)
      else (s, Response.interfaceNotFound)

/-! ## Memory and disk -/

/-- The map built by `getMemoryInfo`, one field per key; a key that was never
stored reads as `0`, as a missing key of a Go map does. -/
structure MemInfo where
  total : Nat
  free : Nat
  buffers : Nat
  cached : Nat
  sreclaimable : Nat
  used : Nat
  deriving DecidableEq

/-- The value `getMemoryInfo` stores for a matching line, when it has two fields. -/
def memValue (line : List Char) : Option Nat :=
  let fs := fields line
  if 2 ≤ fs.length then some (parseUint (fs.getD 1 [])).1 else none

/-- Loop body of `getMemoryInfo` on one line. -/
def memStep (info : MemInfo) (line : List Char) : MemInfo :=
  if hasPrefix line "MemTotal:".toList then
    match memValue line with
    | some v => { info with total := v }
    | none => info
  else if hasPrefix line "MemFree:".toList then
    match memValue line with
    | some v => { info with free := v }
    | none => info
  else if hasPrefix line "Buffers:".toList then
    match memValue line with
    | some v => { info with buffers := v }
    | none => info
  else if hasPrefix line "Cached:".toList then
    match memValue line with
    | some v => { info with cached := v }
    | none => info
  else if hasPrefix line "SReclaimable:".toList then
    match memValue line with
    | some v => { info with sreclaimable := v }
    | none => info
  else info

/-- The function `getMemoryInfo`; the argument is the result of reading
`/proc/meminfo`. -/
def getMemoryInfo (data : Option (List Char)) : MemInfo :=
  match data with
  | none => ⟨0, 0, 0, 0, 0, 0⟩
  | some s =>
    let info := (split '\n' s).foldl memStep ⟨0, 0, 0, 0, 0, 0⟩
    let used := subU64 (subU64 (subU64 (subU64 info.total info.free) info.buffers)
      info.cached) info.sreclaimable
    { info with used := used }

/-- The map returned by `getDiskInfo`. -/
structure DiskInfo where
  total : Nat
  used : Nat
  available : Nat
  deriving DecidableEq

/-- The exclusion test of `getDiskInfo` on the filesystem field. -/
def excludedFilesystem (filesystem : List Char) : Bool :=
  contains filesystem "-".toList ||
  filesystem = "none".toList ||
  hasPrefix filesystem "tmpfs".toList ||
  hasPrefix filesystem "devtmpfs".toList ||
  contains filesystem "by-uuid".toList ||
  contains filesystem "chroot".toList ||
  hasPrefix filesystem "udev".toList ||
  contains filesystem "docker".toList ||
  contains filesystem "storage".toList

/-- Loop body of `getDiskInfo` on one line of the `df` output. -/
def diskStep (acc : DiskInfo) (rawLine : List Char) : DiskInfo :=
  let line := trimSpace rawLine
  if line = [] then acc
  else
    let fs := fields line
    if fs.length < 6 then acc
    else if excludedFilesystem (fs.getD 0 []) then acc
    else
      let total := parseUint (fs.getD 1 [])
      let used := parseUint (fs.getD 2 [])
      let available := parseUint (fs.getD 3 [])
      if total.2 && used.2 && available.2 then
        { total := addU64 acc.total total.1
          used := addU64 acc.used used.1
          available := addU64 acc.available available.1 }
      else acc

/-- The function `getDiskInfo`; the argument is the output of the `df` command
(`none` when the command fails). -/
def getDiskInfo (output : Option (List Char)) : DiskInfo :=
  match output with
  | none => ⟨0, 0, 0⟩
  | some s => ((split '\n' s).drop 1).foldl diskStep ⟨0, 0, 0⟩

/-! ## Sample sources -/

/-- A `/proc/net/dev` text with the interfaces `lo`, `veth0` and `eth0`, in this order. -/
def netDevThree : List Char :=
  ("Inter-|   Receive                                                |  Transmit\n" ++
   " face |bytes    packets errs drop fifo frame compressed multicast|bytes    packets errs drop fifo colls carrier compressed\n" ++
   "    lo: 1000 10 0 0 0 0 0 0 2000 20 0 0 0 0 0 0\n" ++
   " veth0: 111 1 0 0 0 0 0 0 222 2 0 0 0 0 0 0\n" ++
   "  eth0: 333 3 0 0 0 0 0 0 444 4 0 0 0 0 0 0\n").toList

/-- A `/proc/net/dev` text of a host whose only interface is the loopback device. -/
def netDevLoopback : List Char :=
  ("Inter-|   Receive                                                |  Transmit\n" ++
   " face |bytes    packets errs drop fifo frame compressed multicast|bytes    packets errs drop fifo colls carrier compressed\n" ++
   "    lo: 1000 10 0 0 0 0 0 0 2000 20 0 0 0 0 0 0\n").toList

/-- A monitor state with `eth0` selected and a 1 s interval. -/
def stateEth0 : State :=
  { em :=
      { config := { Interface := "eth0".toList, Port := 8080, Interval := 1000000000 },
        monitor :=
          { config := { Interface := "eth0".toList, Port := 8080, Interval := 1000000000 },
            prevNetRx := 333, prevNetTx := 444, prevCPUStat := ⟨0, 0, 0, 0, 0, 0, 0⟩ } },
    currentSelectedInterface := "eth0".toList }

/-- The memory scenario of the specification as a `/proc/meminfo` text: total
8000000, free 2000000, buffers 100000, cached 1500000, reclaimable slab 200000. -/
def memInfoScenario : List Char :=
  ("MemTotal:        8000000 kB\n" ++
   "MemFree:         2000000 kB\n" ++
   "MemAvailable:    5000000 kB\n" ++
   "Buffers:          100000 kB\n" ++
   "Cached:          1500000 kB\n" ++
   "SwapCached:            0 kB\n" ++
   "SReclaimable:     200000 kB\n").toList

/-- A `/proc/meminfo` text whose free, buffer and cache figures add up to more than
the total (as under a container memory limit). -/
def memInfoOver : List Char :=
  ("MemTotal:           1000 kB\n" ++
   "MemFree:             100 kB\n" ++
   "Buffers:               0 kB\n" ++
   "Cached:              950 kB\n" ++
   "SReclaimable:          0 kB\n").toList

/-- The disk scenario of the specification as a `df` output: a real `/dev/sda1` row
and an excluded `tmpfs` row. -/
def dfScenario : List Char :=
  ("Filesystem     1K-blocks     Used Available Use% Mounted on\n" ++
   "/dev/sda1      102400000 40960000  61440000  40% /\n" ++
   "tmpfs            4096000        0   4096000   0% /dev/shm\n").toList

/-- A `df` output with a row whose used and available columns are not numbers. -/
def dfDash : List Char :=
  ("Filesystem     1K-blocks     Used Available Use% Mounted on\n" ++
   "/dev/sdb1            100        -         -    - /mnt\n").toList

/-- A `df` output whose total column adds up to `2 ^ 64`. -/
def dfHuge : List Char :=
  ("Filesystem     1K-blocks     Used Available Use% Mounted on\n" ++
   "/dev/sda1 18446744073709551615 1 1 1% /\n" ++
   "/dev/sdb1 1 1 1 1% /mnt\n").toList

/-! ## Quantities named by the specification -/

/-- The total-tick delta of the specification: the sum of the seven tick categories
of `curr` minus that of `prev`, as an integer. -/
def totalDelta (prev curr : CPUStat) : ℤ :=
  ((curr.User : ℤ) + curr.Nice + curr.System + curr.Idle + curr.Iowait + curr.Irq + curr.Softirq)
    - ((prev.User : ℤ) + prev.Nice + prev.System + prev.Idle + prev.Iowait + prev.Irq
      + prev.Softirq)

/-- The idle delta of the specification: `idle + iowait` of `curr` minus that of
`prev`, as an integer. -/
def idleDelta (prev curr : CPUStat) : ℤ :=
  ((curr.Idle : ℤ) + curr.Iowait) - ((prev.Idle : ℤ) + prev.Iowait)

/-- The variable `totalDiff` of `calculateCPUUsage`. -/
def totalDiff (prev curr : CPUStat) : Nat := subU64 (cpuTotal curr) (cpuTotal prev)

/-- The variable `idleDiff` of `calculateCPUUsage`. -/
def idleDiff (prev curr : CPUStat) : Nat := subU64 (cpuIdle curr) (cpuIdle prev)

/-- The value a memory text gives for `key`: the one `getMemoryInfo` reads on the last
line that starts with `key` and has two fields; `0` when there is no such line. -/
def givenValue (key : List Char) (lines : List (List Char)) : Nat :=
  match (lines.filter (fun l => hasPrefix l key && (memValue l).isSome)).getLast? with
  | some l => (memValue l).getD 0
  | none => 0

/-- The data rows of a `df` output: the lines after the header, trimmed and cut into
fields, that have at least six fields. -/
def dfRows (s : List Char) : List (List (List Char)) :=
  (((split '\n' s).drop 1).map (fun l => fields (trimSpace l))).filter
    (fun fs => decide (6 ≤ fs.length))

/-- Column `i` of a data row, as `strconv.ParseUint` reads it. -/
def dfColumn (i : Nat) (fs : List (List Char)) : Nat := (parseUint (fs.getD i [])).1

/-- Whether the three size columns of a data row are valid `uint64` decimals. -/
def dfNumeric (fs : List (List Char)) : Bool :=
  (parseUint (fs.getD 1 [])).2 && (parseUint (fs.getD 2 [])).2 && (parseUint (fs.getD 3 [])).2

/-- The rows `getDiskInfo` adds up: filesystem field not excluded, three valid numbers. -/
def dfCounted (fs : List (List Char)) : Bool :=
  !excludedFilesystem (fs.getD 0 []) && dfNumeric fs


/-! ## Usage percentages and their publication -/

/-- The percentage expression of `collectStats`:
`float64(x["used"]) * 100 / float64(x["total"])`. -/
def usagePercent (used total : Nat) : F64 :=
  F64.div (F64.mul (F64.ofNat used) (F64.fin 100)) (F64.ofNat total)

/-- The value `collectStats` formats into `MemUsage`; the argument is the result of
reading `/proc/meminfo`. -/
def memUsage (data : Option (List Char)) : F64 :=
  usagePercent (getMemoryInfo data).used (getMemoryInfo data).total

/-- The value `collectStats` formats into `DiskUsage`; the argument is the output of
the `df` command. -/
def diskUsage (output : Option (List Char)) : F64 :=
  usagePercent (getDiskInfo output).used (getDiskInfo output).total

/-- Worker of `natDecimal`: decimal digits of `n`, most significant first. -/
def natDecimalAux : Nat → Nat → List Char → List Char
  | 0, _, acc => acc
  | fuel + 1, n, acc =>
    if n < 10 then Char.ofNat (48 + n) :: acc
    else natDecimalAux fuel (n / 10) (Char.ofNat (48 + n % 10) :: acc)

/-- Decimal digits of a natural number (the verb `%d`). -/
def natDecimal (n : Nat) : List Char := natDecimalAux (n + 1) n []

/-- Go's `fmt.Sprintf("%.2f", x)`: two fraction digits of the exact value, rounded to
nearest, ties to even; `NaN` and the infinities are spelled out. -/
def formatFloat2 : F64 → List Char
  | F64.nan => "NaN".toList
  | F64.inf false => "+Inf".toList
  | F64.inf true => "-Inf".toList
  | F64.fin q =>
    let n := (roundHalfEven (|q| * 100)).toNat
    (if q < 0 then ['-'] else []) ++ natDecimal (n / 100) ++ ['.'] ++
      [Char.ofNat (48 + n % 100 / 10), Char.ofNat (48 + n % 10)]

/-! ## CPU reader with checked indexing -/

/-- The seven counters of a field list, with every index checked: `none` stands for
the run-time panic of an index out of range. -/
def cpuStatOfFields (fs : List (List Char)) : Option CPUStat := do
  let f1 ← fs[1]?
  let f2 ← fs[2]?
  let f3 ← fs[3]?
  let f4 ← fs[4]?
  let f5 ← fs[5]?
  let f6 ← fs[6]?
  let f7 ← fs[7]?
  pure
    { User := (parseUint f1).1, Nice := (parseUint f2).1, System := (parseUint f3).1,
      Idle := (parseUint f4).1, Iowait := (parseUint f5).1, Irq := (parseUint f6).1,
      Softirq := (parseUint f7).1 }

/-- Line loop of `getCPUStats` with checked indexing. -/
def getCPUStatsLinesChecked : List (List Char) → Option CPUStat
  | [] => some ⟨0, 0, 0, 0, 0, 0, 0⟩
  | line :: rest =>
    if hasPrefix line "cpu ".toList then
      if 8 ≤ (fields line).length then cpuStatOfFields (fields line)
      else getCPUStatsLinesChecked rest
    else getCPUStatsLinesChecked rest

/-- The function `getCPUStats` with checked indexing: `none` would be a panic. -/
def getCPUStatsChecked (data : Option (List Char)) : Option CPUStat :=
  match data with
  | none => some ⟨0, 0, 0, 0, 0, 0, 0⟩
  | some s => getCPUStatsLinesChecked (split '\n' s)

/-- Whether a line is one `getCPUStats` takes its counters from. -/
def cpuLine (line : List Char) : Bool :=
  hasPrefix line "cpu ".toList && decide (8 ≤ (fields line).length)

/-! ## Interfaces endpoint -/

/-- The `/api/interfaces` handler: the `interfaces` and `current` entries of its
response; `listing` is what `/proc/net/dev` holds when it is served. -/
def interfacesEndpoint (s : State) (listing : Option (List Char)) :
    List (List Char) × List Char :=
  (getAvailableInterfaces listing, getSelectedInterface s)

/-! ## Uptime -/

/-- The three integers `getUptime` formats with `"%d天%d小时%d分钟"`. -/
structure Uptime where
  days : Int
  hours : Int
  minutes : Int
  deriving DecidableEq

/-- The conversion `int(x)` of a float64 to a 64-bit `int`: truncation toward zero
when the result fits; otherwise the result is implementation-dependent in Go and is
given by `outOfRange`. -/
def intOfFloat (outOfRange : F64 → Int) : F64 → Int
  | F64.fin q =>
    let t : Int := if 0 ≤ q then ⌊q⌋ else ⌈q⌉
    if -(2 ^ 63) ≤ t ∧ t < 2 ^ 63 then t else outOfRange (F64.fin q)
  | x => outOfRange x

/-- The function `getUptime`.  `parseFloat` is `strconv.ParseFloat(·, 64)` (`none` for
an error), `outOfRange` the implementation-dependent part of `int(x)`, and `data` the
result of reading `/proc/uptime`. -/
def getUptime (parseFloat : List Char → Option F64) (outOfRange : F64 → Int)
    (data : Option (List Char)) : Uptime :=
  match data with
  | none => ⟨0, 0, 0⟩
  | some s =>
    match fields s with
    | [] => ⟨0, 0, 0⟩
    | f0 :: _ =>
      match parseFloat f0 with
      | none => ⟨0, 0, 0⟩
      | some uptime =>
        let u := intOfFloat outOfRange uptime
        { days := Int.tdiv u 86400
          hours := Int.tdiv (Int.tmod u 86400) 3600
          minutes := Int.tdiv (Int.tmod u 3600) 60 }

/-- Digits of an unsigned decimal as a number (`none` when a character is not a digit). -/
def decimalDigits : List Char → Nat → Option Nat
  | [], n => some n
  | c :: cs, n =>
    if 48 ≤ c.toNat ∧ c.toNat ≤ 57 then decimalDigits cs (n * 10 + (c.toNat - 48)) else none

/-- The result of `strconv.ParseFloat(s, 64)` on an unsigned decimal `digits` or
`digits.digits`: the float64 nearest to its exact value.  Texts of another shape are
not read by this function (`none`). -/
def parseDecimalFloat (s : List Char) : Option F64 :=
  match split '.' s with
  | [ip] =>
    if ip = [] then none
    else (decimalDigits ip 0).map (fun n => f64round (n : ℚ))
  | [ip, fp] =>
    if ip = [] then none
    else
      match decimalDigits ip 0, decimalDigits fp 0 with
      | some n, some f => some (f64round ((n : ℚ) + (f : ℚ) / (10 : ℚ) ^ fp.length))
      | _, _ => none
  | _ => none

/-- The out-of-range result of `int(x)` on amd64: the smallest 64-bit integer. -/
def outOfRangeAmd64 (_ : F64) : Int := -(2 ^ 63)

/-- The out-of-range result of `int(x)` on arm64: saturation, and 0 for NaN. -/
def outOfRangeArm64 : F64 → Int
  | F64.fin q => if q < 0 then -(2 ^ 63) else 2 ^ 63 - 1
  | F64.inf neg => if neg then -(2 ^ 63) else 2 ^ 63 - 1
  | F64.nan => 0

/-! ## Consecutive ticks and startup -/

/-- The two `uint64` differences `collectStats` turns into rates in one tick. -/
def tickDelta (m : Monitor) (src : Sources) : Nat × Nat :=
  (subU64 (getNetworkStats m.config.Interface src.netDev).1 m.prevNetRx,
   subU64 (getNetworkStats m.config.Interface src.netDev).2 m.prevNetTx)

/-- Consecutive ticks: the final monitor and the differences of each tick. -/
def runTicks : Monitor → List Sources → Monitor × List (Nat × Nat)
  | m, [] => (m, [])
  | m, src :: rest =>
    let r := runTicks (collectStats m src).1 rest
    (r.1, tickDelta m src :: r.2)

/-- The counters that the ticks read for the interface `iface`. -/
def netReads (iface : List Char) (srcs : List Sources) : List (Nat × Nat) :=
  srcs.map (fun src => getNetworkStats iface src.netDev)

/-- The start of `main`: automatic selection of the first available interface,
construction of both monitors from one `Config`, and `initStats`.  `listing` is what
`/proc/net/dev` holds when the interfaces are listed, `src` what `initStats` reads. -/
def startup (port : Int) (listing : Option (List Char)) (src : Sources) : State :=
  let interfaces := getAvailableInterfaces listing
  let defaultInterface : List Char :=
    match interfaces with
    | [] => []
    | i :: _ => i
  let selected : State → State :=
    match interfaces with
    | [] => fun s => s
    | i :: _ => fun s => setSelectedInterface s i
  let config : Config := { Interface := defaultInterface, Port := port, Interval := 1000000000 }
  let monitor : Monitor :=
    { config := config, prevNetRx := 0, prevNetTx := 0, prevCPUStat := ⟨0, 0, 0, 0, 0, 0, 0⟩ }
  selected
    { em := { config := config, monitor := initStats monitor src },
      currentSelectedInterface := [] }

/-! ## Handlers and ticks running concurrently -/

/-- The lines of the `/api/switch-interface` handler that write shared state, in the
order the handler runs them: 652 `em.config.Interface = req.Interface`, 653
`em.monitor.config.Interface = req.Interface`, 655 `setSelectedInterface(...)`, 657 the
re-read of the baseline. -/
inductive HandlerLine where
  | l652
  | l653
  | l655
  | l657
  deriving DecidableEq

/-- A handler in progress: the name it validated and the line it runs next. -/
structure Handler where
  name : List Char
  line : HandlerLine
  deriving DecidableEq

/-- Lines 627 to 650 of the handler, which write nothing shared: a request that
passes the method check, the decoding and the validation against `listing` becomes a
handler about to run line 652; any other request is answered and leaves nothing behind. -/
def arriveHandler (req : SwitchRequest) (listing : Option (List Char)) : Option Handler :=
  if req.method ≠ "POST".toList then none
  else
    match req.body with
    | none => none
    | some name =>
      if validInterface name (getAvailableInterfaces listing) then
        some { name := name, line := HandlerLine.l652 }
      else none

/-- The next line of a handler in progress: the state it leaves and the handler that
remains (`none` after line 657).  `reading` is what `/proc/net/dev` holds at line 657. -/
def advanceHandler (s : State) (h : Handler) (reading : Option (List Char)) :
    State × Option Handler :=
  match h.line with
  | HandlerLine.l652 =>
    let config : Config := { s.em.config with Interface := h.name }
    ({ s with em := { s.em with config := config } },
      some { h with line := HandlerLine.l653 })
  | HandlerLine.l653 =>
    let config : Config := { s.em.monitor.config with Interface := h.name }
    let monitor : Monitor := { s.em.monitor with config := config }
    ({ s with em := { s.em with monitor := monitor } },
      some { h with line := HandlerLine.l655 })
  | HandlerLine.l655 => (setSelectedInterface s h.name, some { h with line := HandlerLine.l657 })
  | HandlerLine.l657 =>
    let net := getNetworkStats s.em.monitor.config.Interface reading
    let monitor : Monitor := { s.em.monitor with prevNetRx := net.1, prevNetTx := net.2 }
    ({ s with em := { s.em with monitor := monitor } }, none)

/-- The process while it serves requests: the shared state and the handlers in
progress, one per request goroutine. -/
structure Sys where
  state : State
  inflight : List Handler
  deriving DecidableEq

/-- What the scheduler can run next: a tick of the monitoring loop, the arrival of a
request (lines 627 to 650), or the next line of the handler in progress at position
`i`.  Nothing in the program orders these with a lock. -/
inductive Action where
  | tick (src : Sources)
  | arrive (req : SwitchRequest) (listing : Option (List Char))
  | advance (i : Nat) (reading : Option (List Char))

/-- One scheduled action.  Each handler line runs as one action, and so does a tick:
`collectStats` writes `prevNetRx`, `prevNetTx` and `prevCPUStat` only, never a copy of
the selection, and no handler line before 657 reads what it writes.  Every execution
of this model is an execution of the program. -/
def act (y : Sys) : Action → Sys
  | Action.tick src =>
    let monitor : Monitor := (collectStats y.state.em.monitor src).1
    { y with state := { y.state with em := { y.state.em with monitor := monitor } } }
  | Action.arrive req listing =>
    match arriveHandler req listing with
    | none => y
    | some h => { y with inflight := y.inflight ++ [h] }
  | Action.advance i reading =>
    match y.inflight[i]? with
    | none => y
    | some h =>
      match advanceHandler y.state h reading with
      | (s, some h1) => { state := s, inflight := y.inflight.set i h1 }
      | (s, none) => { state := s, inflight := y.inflight.eraseIdx i }

/-- A schedule, run action by action. -/
def exec (y : Sys) (acts : List Action) : Sys := acts.foldl act y

/-- A `/proc/stat` text whose aggregate line has a nice field that is not a number. -/
def statBadField : List Char :=
  ("cpu  100 abc 300 400 500 600 700 0 0 0\n" ++
   "cpu0 100 0 300 400 500 600 700 0 0 0\n").toList

/-- A later `/proc/net/dev` text with `lo` and `eth0`, the counters of `eth0` at 1333
received and 2444 transmitted bytes. -/
def netDevLater : List Char :=
  ("Inter-|   Receive                                                |  Transmit\n" ++
   " face |bytes    packets errs drop fifo frame compressed multicast|bytes    packets errs drop fifo colls carrier compressed\n" ++
   "    lo: 1000 10 0 0 0 0 0 0 2000 20 0 0 0 0 0 0\n" ++
   "  eth0: 1333 13 0 0 0 0 0 0 2444 24 0 0 0 0 0 0\n").toList

/-- A monitor state with `veth0` selected, its baseline the counters of `veth0` in
`netDevThree`, and a 1 s interval. -/
def stateVeth0 : State :=
  { em :=
      { config := { Interface := "veth0".toList, Port := 8080, Interval := 1000000000 },
        monitor :=
          { config := { Interface := "veth0".toList, Port := 8080, Interval := 1000000000 },
            prevNetRx := 111, prevNetTx := 222, prevCPUStat := ⟨0, 0, 0, 0, 0, 0, 0⟩ } },
    currentSelectedInterface := "veth0".toList }

/-- The text `netDevThree` one tick later: `veth0` has received 1024 and sent 2048
more bytes, the counters of `lo` and `eth0` have not moved. -/
def netDevThreeLater : List Char :=
  ("Inter-|   Receive                                                |  Transmit\n" ++
   " face |bytes    packets errs drop fifo frame compressed multicast|bytes    packets errs drop fifo colls carrier compressed\n" ++
   "    lo: 1000 10 0 0 0 0 0 0 2000 20 0 0 0 0 0 0\n" ++
   " veth0: 1135 2 0 0 0 0 0 0 2270 4 0 0 0 0 0 0\n" ++
   "  eth0: 333 3 0 0 0 0 0 0 444 4 0 0 0 0 0 0\n").toList

/-- A `/proc/uptime` text: 12345.67 seconds since boot. -/
def uptimeSample : List Char := "12345.67 54321.00\n".toList

/-- A `/proc/uptime` text whose first field is `2 ^ 64` seconds. -/
def uptimeHuge : List Char := "18446744073709551616.00 0.00\n".toList

/-- The interface name found on a line of `/proc/net/dev`: the text before the first
colon, without surrounding white space; `none` for a line without a colon. -/
def nameOnLine (line : List Char) : Option (List Char) :=
  if ':' ∈ line then some (trimSpace (line.takeWhile (fun c => c != ':'))) else none

/-- Line loop of `ownCounters`. -/
def ownCountersLines (name : List Char) : List (List Char) → Nat × Nat
  | [] => (0, 0)
  | line :: rest =>
    if nameOnLine line = some name then
      let fs := fields line
      if 10 ≤ fs.length then ((parseUint (fs.getD 1 [])).1, (parseUint (fs.getD 9 [])).1)
      else ownCountersLines name rest
    else ownCountersLines name rest

/-- The counters of an interface as the specification names them: the received and
transmitted bytes on the interface's own line of `/proc/net/dev`, the line whose name
is `name`; `(0, 0)` when there is none.  It differs from `getNetworkStats` in the test
on the line only. -/
def ownCounters (name : List Char) (data : Option (List Char)) : Nat × Nat :=
  match data with
  | none => (0, 0)
  | some s => ownCountersLines name (split '\n' s)

/-! ## Rounding lemmas -/

theorem log2Aux_spec : ∀ (fuel n : Nat), n ≤ fuel → n ≠ 0 →
    2 ^ log2Aux fuel n ≤ n ∧ n < 2 ^ (log2Aux fuel n + 1) := by
  intro fuel
  induction fuel with
  | zero => intro n h h0; omega
  | succ f ih =>
    intro n h h0
    unfold log2Aux
    by_cases h2 : n < 2
    · simp only [h2, if_true]
      omega
    · simp only [h2, if_false]
      have hd : n / 2 ≤ f := by omega
      have hd0 : n / 2 ≠ 0 := by omega
      obtain ⟨h3, h4⟩ := ih (n / 2) hd hd0
      rw [pow_succ] at h4
      constructor
      · rw [pow_succ]; omega
      · rw [pow_succ, pow_succ]; omega

theorem natLog2_spec (n : Nat) (h0 : n ≠ 0) :
    2 ^ natLog2 n ≤ n ∧ n < 2 ^ (natLog2 n + 1) :=
  log2Aux_spec n n le_rfl h0

theorem binExp_spec (q : ℚ) (hq : q ≠ 0) :
    (2 : ℚ) ^ binExp q ≤ |q| ∧ |q| < (2 : ℚ) ^ (binExp q + 1) := by
  have hn : q.num.natAbs ≠ 0 := by
    simpa [Int.natAbs_eq_zero] using hq
  have hd : q.den ≠ 0 := q.den_nz
  obtain ⟨hn1, hn2⟩ := natLog2_spec _ hn
  obtain ⟨hd1, hd2⟩ := natLog2_spec _ hd
  have habs : |q| = (q.num.natAbs : ℚ) / (q.den : ℚ) := by
    conv_lhs => rw [← Rat.num_div_den q]
    rw [abs_div, Nat.cast_natAbs, Int.cast_abs, Nat.abs_cast]
  have hdpos : (0 : ℚ) < (q.den : ℚ) := by exact_mod_cast q.den_pos
  have hn1q : (2 : ℚ) ^ (natLog2 q.num.natAbs) ≤ (q.num.natAbs : ℚ) := by exact_mod_cast hn1
  have hn2q : (q.num.natAbs : ℚ) < (2 : ℚ) ^ (natLog2 q.num.natAbs + 1) := by exact_mod_cast hn2
  have hd1q : (2 : ℚ) ^ (natLog2 q.den) ≤ (q.den : ℚ) := by exact_mod_cast hd1
  have hd2q : (q.den : ℚ) < (2 : ℚ) ^ (natLog2 q.den + 1) := by exact_mod_cast hd2
  have h2 : (2 : ℚ) ≠ 0 := by norm_num
  have hpa : (0 : ℚ) < (2 : ℚ) ^ (natLog2 q.num.natAbs) := by positivity
  have hpb : (0 : ℚ) < (2 : ℚ) ^ (natLog2 q.den) := by positivity
  unfold binExp
  simp only
  split_ifs with hk
  · refine ⟨hk, ?_⟩
    rw [habs, div_lt_iff₀ hdpos]
    have e : (2 : ℚ) ^ ((natLog2 q.num.natAbs : ℤ) - (natLog2 q.den : ℤ) + 1)
        = (2 : ℚ) ^ (natLog2 q.num.natAbs + 1) / (2 : ℚ) ^ (natLog2 q.den) := by
      rw [zpow_add₀ h2, zpow_sub₀ h2, zpow_natCast, zpow_natCast, zpow_one, pow_succ]
      ring
    rw [e, div_mul_eq_mul_div, lt_div_iff₀ hpb]
    calc (q.num.natAbs : ℚ) * 2 ^ natLog2 q.den
        < 2 ^ (natLog2 q.num.natAbs + 1) * 2 ^ natLog2 q.den := by
          exact mul_lt_mul_of_pos_right hn2q hpb
      _ ≤ 2 ^ (natLog2 q.num.natAbs + 1) * (q.den : ℚ) := by
          exact mul_le_mul_of_nonneg_left hd1q (by positivity)
  · constructor
    · rw [habs, le_div_iff₀ hdpos]
      have e : (2 : ℚ) ^ ((natLog2 q.num.natAbs : ℤ) - (natLog2 q.den : ℤ) - 1)
          = (2 : ℚ) ^ (natLog2 q.num.natAbs) / (2 : ℚ) ^ (natLog2 q.den + 1) := by
        rw [zpow_sub₀ h2, zpow_sub₀ h2, zpow_natCast, zpow_natCast, zpow_one, pow_succ]
        field_simp
      rw [e, div_mul_eq_mul_div, div_le_iff₀ (by positivity)]
      calc (2 : ℚ) ^ natLog2 q.num.natAbs * (q.den : ℚ)
          ≤ 2 ^ natLog2 q.num.natAbs * 2 ^ (natLog2 q.den + 1) := by
            exact mul_le_mul_of_nonneg_left hd2q.le hpa.le
        _ ≤ (q.num.natAbs : ℚ) * 2 ^ (natLog2 q.den + 1) := by
            exact mul_le_mul_of_nonneg_right hn1q (by positivity)
    · have : (2 : ℚ) ^ ((natLog2 q.num.natAbs : ℤ) - (natLog2 q.den : ℤ) - 1 + 1)
          = (2 : ℚ) ^ ((natLog2 q.num.natAbs : ℤ) - (natLog2 q.den : ℤ)) := by
        congr 1; ring
      rw [this]
      exact lt_of_not_le hk

theorem le_binExp (q : ℚ) (j : ℤ) (h : (2 : ℚ) ^ j ≤ |q|) : j ≤ binExp q := by
  have hq : q ≠ 0 := by
    rintro rfl
    have : (0 : ℚ) < 2 ^ j := zpow_pos (by norm_num) j
    simp at h
    linarith
  have h1 := (binExp_spec q hq).2
  have h2 : (2 : ℚ) ^ j < 2 ^ (binExp q + 1) := lt_of_le_of_lt h h1
  have := (zpow_lt_zpow_iff_right₀ (by norm_num : (1 : ℚ) < 2)).1 h2
  omega

theorem binExp_lt (q : ℚ) (j : ℤ) (hq : q ≠ 0) (h : |q| < (2 : ℚ) ^ j) : binExp q < j := by
  have h1 := (binExp_spec q hq).1
  have h2 : (2 : ℚ) ^ binExp q < 2 ^ j := lt_of_le_of_lt h1 h
  exact (zpow_lt_zpow_iff_right₀ (by norm_num : (1 : ℚ) < 2)).1 h2

theorem roundHalfEven_intCast (n : ℤ) : roundHalfEven (n : ℚ) = n := by
  simp [roundHalfEven]

theorem roundHalfEven_bounds (x : ℚ) : ⌊x⌋ ≤ roundHalfEven x ∧ roundHalfEven x ≤ ⌊x⌋ + 1 := by
  unfold roundHalfEven
  simp only
  split_ifs <;> constructor <;> omega

theorem roundHalfEven_mono {x y : ℚ} (h : x ≤ y) : roundHalfEven x ≤ roundHalfEven y := by
  have hf : ⌊x⌋ ≤ ⌊y⌋ := Int.floor_mono h
  rcases hf.lt_or_eq with hlt | heq
  · have h1 := (roundHalfEven_bounds x).2
    have h2 := (roundHalfEven_bounds y).1
    omega
  · unfold roundHalfEven
    simp only
    rw [heq]
    have hfx : x - (⌊y⌋ : ℚ) ≤ y - (⌊y⌋ : ℚ) := by linarith
    split_ifs <;> first | omega | (exfalso; linarith)

theorem f64ulp_pos (q : ℚ) : 0 < f64ulp q := by
  unfold f64ulp
  exact zpow_pos (by norm_num) _


theorem f64roundQ_nonneg {q : ℚ} (h : 0 ≤ q) : 0 ≤ f64roundQ q := by
  unfold f64roundQ
  have hu := f64ulp_pos q
  have h0 : (0 : ℤ) ≤ roundHalfEven (q / f64ulp q) := by
    have := roundHalfEven_mono (div_nonneg h hu.le)
    rwa [show ((0 : ℚ)) = ((0 : ℤ) : ℚ) by simp, roundHalfEven_intCast] at this
  have : (0 : ℚ) ≤ (roundHalfEven (q / f64ulp q) : ℚ) := by exact_mod_cast h0
  positivity

theorem f64roundQ_exact (m k : ℤ) (hm : |m| < 2 ^ 53) (hk : -1074 ≤ k) :
    f64roundQ ((m : ℚ) * 2 ^ k) = (m : ℚ) * 2 ^ k := by
  have h2 : (2 : ℚ) ≠ 0 := by norm_num
  by_cases hm0 : m = 0
  · subst hm0
    simp [f64roundQ, roundHalfEven]
  · have hkpos : (0 : ℚ) < 2 ^ k := zpow_pos (by norm_num) k
    have hq : (m : ℚ) * 2 ^ k ≠ 0 := mul_ne_zero (by exact_mod_cast hm0) hkpos.ne.symm
    have habs : |(m : ℚ) * 2 ^ k| < 2 ^ (53 + k) := by
      rw [abs_mul, abs_of_pos hkpos, zpow_add₀ h2]
      apply mul_lt_mul_of_pos_right _ hkpos
      exact_mod_cast hm
    have hb := binExp_lt _ _ hq habs
    have hE : max (binExp ((m : ℚ) * 2 ^ k)) (-1022) - 52 ≤ k := by
      rcases max_cases (binExp ((m : ℚ) * 2 ^ k)) (-1022) with ⟨h1, _⟩ | ⟨h1, _⟩ <;> omega
    obtain ⟨j, hj⟩ : ∃ j : ℕ, (j : ℤ) = k - (max (binExp ((m : ℚ) * 2 ^ k)) (-1022) - 52) :=
      ⟨(k - (max (binExp ((m : ℚ) * 2 ^ k)) (-1022) - 52)).toNat, by omega⟩
    have hdiv : (m : ℚ) * 2 ^ k / f64ulp ((m : ℚ) * 2 ^ k) = ((m * 2 ^ j : ℤ) : ℚ) := by
      unfold f64ulp
      rw [mul_div_assoc, ← zpow_sub₀ h2, ← hj]
      push_cast
      rw [zpow_natCast]
    unfold f64roundQ
    rw [hdiv, roundHalfEven_intCast]
    unfold f64ulp
    push_cast
    rw [mul_assoc, ← zpow_natCast, ← zpow_add₀ h2, hj]
    congr 2
    ring

theorem f64roundQ_pow (k : ℤ) (hk : -1074 ≤ k) : f64roundQ (2 ^ k) = 2 ^ k := by
  have := f64roundQ_exact 1 k (by norm_num) hk
  simpa using this

theorem f64roundQ_lower {r : ℚ} (hr : 0 < r) (hb : -1022 ≤ binExp r) :
    (2 : ℚ) ^ binExp r ≤ f64roundQ r := by
  have h2 : (2 : ℚ) ≠ 0 := by norm_num
  have hs := (binExp_spec r hr.ne.symm).1
  rw [abs_of_pos hr] at hs
  unfold f64roundQ f64ulp
  rw [max_eq_left hb]
  have hu : (0 : ℚ) < 2 ^ (binExp r - 52) := zpow_pos (by norm_num) _
  have e52 : (((2 : ℤ) ^ 52 : ℤ) : ℚ) = (2 : ℚ) ^ (52 : ℤ) := by norm_num
  have h1 : (((2 : ℤ) ^ 52 : ℤ) : ℚ) ≤ r / 2 ^ (binExp r - 52) := by
    rw [le_div_iff₀ hu, e52, ← zpow_add₀ h2]
    simpa using hs
  have h3 := roundHalfEven_mono h1
  rw [roundHalfEven_intCast] at h3
  have h4 : (((2 : ℤ) ^ 52 : ℤ) : ℚ) ≤ (roundHalfEven (r / 2 ^ (binExp r - 52)) : ℚ) := by
    exact_mod_cast h3
  calc (2 : ℚ) ^ binExp r = (((2 : ℤ) ^ 52 : ℤ) : ℚ) * 2 ^ (binExp r - 52) := by
        rw [e52, ← zpow_add₀ h2]
        simp
    _ ≤ _ := mul_le_mul_of_nonneg_right h4 hu.le

theorem f64roundQ_upper {q : ℚ} (hq : 0 < q) :
    f64roundQ q ≤ (2 : ℚ) ^ (max (binExp q) (-1022) + 1) := by
  have h2 : (2 : ℚ) ≠ 0 := by norm_num
  have hs := (binExp_spec q hq.ne.symm).2
  rw [abs_of_pos hq] at hs
  unfold f64roundQ f64ulp
  set E := max (binExp q) (-1022) with hE
  have hu : (0 : ℚ) < 2 ^ (E - 52) := zpow_pos (by norm_num) _
  have hle : (2 : ℚ) ^ (binExp q + 1) ≤ 2 ^ (E + 1) :=
    zpow_le_zpow_right₀ (by norm_num) (by have := le_max_left (binExp q) (-1022); omega)
  have e53 : (((2 : ℤ) ^ 53 : ℤ) : ℚ) = (2 : ℚ) ^ (53 : ℤ) := by norm_num
  have hsum : (53 : ℤ) + (E - 52) = E + 1 := by ring
  have h1 : q / 2 ^ (E - 52) ≤ (((2 : ℤ) ^ 53 : ℤ) : ℚ) := by
    rw [div_le_iff₀ hu, e53, ← zpow_add₀ h2, hsum]
    linarith
  have h3 := roundHalfEven_mono h1
  rw [roundHalfEven_intCast] at h3
  have h4 : (roundHalfEven (q / 2 ^ (E - 52)) : ℚ) ≤ (((2 : ℤ) ^ 53 : ℤ) : ℚ) := by
    exact_mod_cast h3
  calc _ ≤ (((2 : ℤ) ^ 53 : ℤ) : ℚ) * 2 ^ (E - 52) := mul_le_mul_of_nonneg_right h4 hu.le
    _ = 2 ^ (E + 1) := by
        rw [e53, ← zpow_add₀ h2, hsum]

theorem f64roundQ_mono {q r : ℚ} (hq : 0 ≤ q) (h : q ≤ r) : f64roundQ q ≤ f64roundQ r := by
  rcases hq.lt_or_eq with hq0 | hq0
  · have hr0 : 0 < r := lt_of_lt_of_le hq0 h
    have hb : binExp q ≤ binExp r := by
      apply le_binExp
      rw [abs_of_pos hr0]
      have := (binExp_spec q hq0.ne.symm).1
      rw [abs_of_pos hq0] at this
      linarith
    have hE : max (binExp q) (-1022) ≤ max (binExp r) (-1022) := max_le_max hb le_rfl
    rcases hE.lt_or_eq with hlt | heq
    · have hbr : -1022 ≤ binExp r := by
        rcases max_cases (binExp r) (-1022) with ⟨h1, h2⟩ | ⟨h1, h2⟩
        · omega
        · have := le_max_right (binExp q) (-1022); omega
      have h1 := f64roundQ_upper hq0
      have h2 := f64roundQ_lower hr0 hbr
      have h3 : (2 : ℚ) ^ (max (binExp q) (-1022) + 1) ≤ 2 ^ binExp r := by
        apply zpow_le_zpow_right₀ (by norm_num)
        rw [max_eq_left hbr] at hlt
        omega
      linarith
    · unfold f64roundQ f64ulp
      rw [heq]
      have hu : (0 : ℚ) < 2 ^ (max (binExp r) (-1022) - 52) := zpow_pos (by norm_num) _
      have h1 : q / 2 ^ (max (binExp r) (-1022) - 52) ≤ r / 2 ^ (max (binExp r) (-1022) - 52) :=
        div_le_div_of_nonneg_right h hu.le
      have h3 := roundHalfEven_mono h1
      have h4 : (roundHalfEven (q / 2 ^ (max (binExp r) (-1022) - 52)) : ℚ)
          ≤ (roundHalfEven (r / 2 ^ (max (binExp r) (-1022) - 52)) : ℚ) := by exact_mod_cast h3
      exact mul_le_mul_of_nonneg_right h4 hu.le
  · subst hq0
    have h0 : f64roundQ 0 = 0 := by simp [f64roundQ, roundHalfEven]
    rw [h0]
    exact f64roundQ_nonneg h


theorem f64roundQ_zero : f64roundQ 0 = 0 := by simp [f64roundQ, roundHalfEven]

theorem f64round_eq (q : ℚ) :
    f64round q = if (2 : ℚ) ^ (1024 : ℕ) ≤ |f64roundQ q| then F64.inf (decide (q < 0))
      else F64.fin (f64roundQ q) := by
  unfold f64round
  by_cases h : q = 0
  · subst h
    have : ¬ ((2 : ℚ) ^ (1024 : ℕ) ≤ |f64roundQ 0|) := by
      rw [f64roundQ_zero]; norm_num
    rw [if_neg this, f64roundQ_zero]
    simp
  · simp [h]

/-- Rounding keeps a non-negative value below an exactly representable bound. -/
theorem f64round_le_of_le {q c : ℚ} (hq : 0 ≤ q) (h : q ≤ c) (hc : f64roundQ c = c)
    (hc2 : c < (2 : ℚ) ^ (1024 : ℕ)) :
    ∃ r, f64round q = F64.fin r ∧ 0 ≤ r ∧ r ≤ c := by
  have h1 := f64roundQ_nonneg hq
  have h2 := f64roundQ_mono hq h
  rw [hc] at h2
  refine ⟨f64roundQ q, ?_, h1, h2⟩
  rw [f64round_eq, if_neg]
  rw [abs_of_nonneg h1]
  intro h3
  linarith

/-- Rounding keeps a value between two powers of two of the normal range. -/
theorem f64round_between {q : ℚ} (j k : ℤ) (hj : -1022 ≤ j) (hk : k < 1024)
    (h1 : (2 : ℚ) ^ j ≤ q) (h2 : q ≤ (2 : ℚ) ^ k) :
    ∃ r, f64round q = F64.fin r ∧ (2 : ℚ) ^ j ≤ r ∧ r ≤ (2 : ℚ) ^ k := by
  have hjpos : (0 : ℚ) < 2 ^ j := zpow_pos (by norm_num) j
  have hq : 0 < q := lt_of_lt_of_le hjpos h1
  have hjk : j ≤ k := (zpow_le_zpow_iff_right₀ (by norm_num : (1 : ℚ) < 2)).1 (h1.trans h2)
  have hb : j ≤ binExp q := le_binExp q j (by rwa [abs_of_pos hq])
  have hlow : (2 : ℚ) ^ j ≤ f64roundQ q :=
    (zpow_le_zpow_right₀ (by norm_num) hb).trans (f64roundQ_lower hq (by omega))
  have hk2 : (2 : ℚ) ^ k < (2 : ℚ) ^ (1024 : ℕ) := by
    rw [← zpow_natCast]
    exact zpow_lt_zpow_right₀ (by norm_num) (by exact_mod_cast hk)
  obtain ⟨r, hr, -, hr2⟩ := f64round_le_of_le hq.le h2 (f64roundQ_pow k (by omega)) hk2
  refine ⟨r, hr, ?_, hr2⟩
  rw [f64round_eq] at hr
  split_ifs at hr
  injection hr with hr
  rw [← hr]
  exact hlow

/-- A non-negative exact result rounds to a non-negative float. -/
theorem f64round_nonneg {q : ℚ} (hq : 0 ≤ q) : F64.le (F64.fin 0) (f64round q) = true := by
  rw [f64round_eq]
  split_ifs
  · have : ¬ q < 0 := not_lt.mpr hq
    simp [F64.le, this]
  · simp [F64.le, f64roundQ_nonneg hq]

/-- Integers below `2 ^ 53` convert to float64 without rounding. -/
theorem ofNat_exact (n : Nat) (h : n < 2 ^ 53) : F64.ofNat n = F64.fin n := by
  have hex : f64roundQ (n : ℚ) = n := by
    have := f64roundQ_exact (n : ℤ) 0 (by rw [abs_of_nonneg (by positivity)]; exact_mod_cast h)
      (by norm_num)
    simpa using this
  unfold F64.ofNat
  rw [f64round_eq, hex, if_neg]
  rw [abs_of_nonneg (by positivity)]
  have : (n : ℚ) < 2 ^ 53 := by exact_mod_cast h
  intro h3
  have : (2 : ℚ) ^ 53 < 2 ^ 1024 := by norm_num
  linarith

/-- A `uint64` converts to a finite non-negative float, at least `1` when it is not zero. -/
theorem ofNat_u64 (n : Nat) (h : n < 2 ^ 64) :
    ∃ a, F64.ofNat n = F64.fin a ∧ 0 ≤ a ∧ a ≤ 2 ^ (64 : ℤ) ∧ (1 ≤ n → (2 : ℚ) ^ (0 : ℤ) ≤ a) := by
  have hn : (n : ℚ) ≤ 2 ^ (64 : ℤ) := by
    have : (n : ℚ) < ((2 ^ 64 : ℕ) : ℚ) := by exact_mod_cast h
    norm_num at this ⊢
    linarith
  by_cases h1 : 1 ≤ n
  · obtain ⟨r, hr, hr1, hr2⟩ := f64round_between (q := (n : ℚ)) 0 64 (by norm_num) (by norm_num)
      (by simpa using (by exact_mod_cast h1 : (1 : ℚ) ≤ n)) hn
    exact ⟨r, hr, by have : (0 : ℚ) < 2 ^ (0 : ℤ) := by norm_num
                     linarith, hr2, fun _ => hr1⟩
  · have : n = 0 := by omega
    subst this
    refine ⟨0, by simp [F64.ofNat, f64round], le_rfl, by positivity, fun h => by omega⟩


/-- Integers of absolute value below `2 ^ 53` convert to float64 without rounding. -/
theorem f64round_int_exact (i : ℤ) (h : |i| < 2 ^ 53) : f64round (i : ℚ) = F64.fin i := by
  have hex : f64roundQ (i : ℚ) = i := by
    have := f64roundQ_exact i 0 h (by norm_num)
    simpa using this
  rw [f64round_eq, hex, if_neg]
  have h1 : |(i : ℚ)| < 2 ^ 53 := by exact_mod_cast h
  have h2 : (2 : ℚ) ^ 53 < 2 ^ 1024 := by norm_num
  intro h3
  linarith

theorem subU64_lt (a b : Nat) : subU64 a b < 2 ^ 64 := by
  unfold subU64
  exact Nat.mod_lt _ (by norm_num)

theorem subU64_of_le {a b : Nat} (h : b ≤ a) (ha : a < 2 ^ 64) : subU64 a b = a - b := by
  unfold subU64
  have hb : b % 2 ^ 64 = b := Nat.mod_eq_of_lt (by omega)
  rw [hb]
  omega

theorem subU64_of_lt {a b : Nat} (h : a < b) (hb : b < 2 ^ 64) :
    subU64 a b = 2 ^ 64 + a - b := by
  unfold subU64
  have hb2 : b % 2 ^ 64 = b := Nat.mod_eq_of_lt hb
  rw [hb2]
  omega

/-- A positive `time.Duration` is a finite, positive number of seconds. -/
theorem durationSeconds_pos (d : ℤ) (h0 : 0 < d) (h1 : d < 2 ^ 63) :
    ∃ s, durationSeconds d = F64.fin s ∧ (2 : ℚ) ^ (-30 : ℤ) ≤ s ∧ s ≤ (2 : ℚ) ^ (35 : ℤ) := by
  have hsec : Int.tdiv d 1000000000 = d / 1000000000 := Int.tdiv_eq_ediv h0.le (by norm_num)
  have hnsec : Int.tmod d 1000000000 = d % 1000000000 := Int.tmod_eq_emod h0.le (by norm_num)
  have hs0 : 0 ≤ d / 1000000000 := by omega
  have hs1 : d / 1000000000 < 2 ^ 34 := by omega
  have hn0 : 0 ≤ d % 1000000000 := by omega
  have hn1 : d % 1000000000 < 1000000000 := by omega
  unfold durationSeconds F64.ofInt
  rw [hsec, hnsec, f64round_int_exact _ (by rw [abs_of_nonneg hs0]; omega),
    f64round_int_exact _ (by rw [abs_of_nonneg hn0]; omega)]
  have hsq0 : (0 : ℚ) ≤ ((d / 1000000000 : ℤ) : ℚ) := by exact_mod_cast hs0
  have hsq1 : ((d / 1000000000 : ℤ) : ℚ) ≤ 2 ^ 34 := by
    have : ((d / 1000000000 : ℤ) : ℚ) < ((2 ^ 34 : ℤ) : ℚ) := by exact_mod_cast hs1
    push_cast at this
    linarith
  have hnq0 : (0 : ℚ) ≤ ((d % 1000000000 : ℤ) : ℚ) := by exact_mod_cast hn0
  have hnq1 : ((d % 1000000000 : ℤ) : ℚ) ≤ 1000000000 := by
    have : ((d % 1000000000 : ℤ) : ℚ) < ((1000000000 : ℤ) : ℚ) := by exact_mod_cast hn1
    push_cast at this
    linarith
  have hdiv : F64.div (F64.fin ((d % 1000000000 : ℤ) : ℚ)) (F64.fin 1000000000)
      = f64round (((d % 1000000000 : ℤ) : ℚ) / 1000000000) := by
    simp [F64.div]
  rw [hdiv]
  by_cases hz : d % 1000000000 = 0
  · rw [hz]
    have hs2 : 1 ≤ d / 1000000000 := by omega
    have hsq2 : (1 : ℚ) ≤ ((d / 1000000000 : ℤ) : ℚ) := by exact_mod_cast hs2
    have h00 : f64round (((0 : ℤ) : ℚ) / 1000000000) = F64.fin 0 := by simp [f64round]
    rw [h00]
    simp only [F64.add, add_zero]
    rw [f64round_int_exact _ (by rw [abs_of_nonneg hs0]; omega)]
    refine ⟨_, rfl, ?_, ?_⟩
    · have : (2 : ℚ) ^ (-30 : ℤ) ≤ 1 := by norm_num
      linarith
    · have : (2 : ℚ) ^ (34 : ℕ) ≤ 2 ^ (35 : ℤ) := by norm_num
      linarith
  · have hn2 : 1 ≤ d % 1000000000 := by omega
    have hnq2 : (1 : ℚ) ≤ ((d % 1000000000 : ℤ) : ℚ) := by exact_mod_cast hn2
    obtain ⟨t, ht, ht1, ht2⟩ := f64round_between
      (q := ((d % 1000000000 : ℤ) : ℚ) / 1000000000) (-30) 0 (by norm_num) (by norm_num)
      (by rw [le_div_iff₀ (by norm_num)]
          have : (2 : ℚ) ^ (-30 : ℤ) * 1000000000 ≤ 1 := by norm_num
          linarith)
      (by rw [div_le_iff₀ (by norm_num)]
          norm_num
          linarith)
    rw [ht]
    simp only [F64.add]
    have ht3 : t ≤ 1 := by simpa using ht2
    have ht0 : (0 : ℚ) < 2 ^ (-30 : ℤ) := by norm_num
    exact f64round_between (-30) 35 (by norm_num) (by norm_num)
      (le_trans ht1 (le_add_of_nonneg_left hsq0))
      (le_trans (add_le_add hsq1 ht3) (by norm_num))

/-- The rate expression on a `uint64` difference `x` and a positive interval is a
finite float, non-negative, and positive when `x` is not zero. -/
theorem rate_fin (x : Nat) (hx : x < 2 ^ 64) (d : ℤ) (h0 : 0 < d) (h1 : d < 2 ^ 63) :
    ∃ r, F64.div (F64.div (F64.ofNat x) (F64.fin 1024)) (durationSeconds d) = F64.fin r
      ∧ 0 ≤ r ∧ (1 ≤ x → 0 < r) := by
  obtain ⟨s, hs, hs1, hs2⟩ := durationSeconds_pos d h0 h1
  obtain ⟨a, ha, ha0, ha1, ha2⟩ := ofNat_u64 x hx
  have hspos : 0 < s := lt_of_lt_of_le (by norm_num) hs1
  rw [hs, ha]
  have e1 : F64.div (F64.fin a) (F64.fin 1024) = f64round (a / 1024) := by simp [F64.div]
  rw [e1]
  by_cases hx1 : 1 ≤ x
  · have ha3 := ha2 hx1
    obtain ⟨b, hb, hb1, hb2⟩ := f64round_between (q := a / 1024) (-10) 54 (by norm_num)
      (by norm_num)
      (by rw [le_div_iff₀ (by norm_num)]; norm_num at ha3 ⊢; linarith)
      (by rw [div_le_iff₀ (by norm_num)]; norm_num at ha1 ⊢; linarith)
    rw [hb]
    have e2 : F64.div (F64.fin b) (F64.fin s) = f64round (b / s) := by
      simp [F64.div, hspos.ne.symm]
    rw [e2]
    obtain ⟨c, hc, hc1, hc2⟩ := f64round_between (q := b / s) (-45) 84 (by norm_num)
      (by norm_num)
      (by rw [le_div_iff₀ hspos]
          calc (2 : ℚ) ^ (-45 : ℤ) * s ≤ 2 ^ (-45 : ℤ) * 2 ^ (35 : ℤ) :=
                mul_le_mul_of_nonneg_left hs2 (by positivity)
            _ = 2 ^ (-10 : ℤ) := by norm_num
            _ ≤ b := hb1)
      (by rw [div_le_iff₀ hspos]
          calc b ≤ 2 ^ (54 : ℤ) := hb2
            _ = 2 ^ (84 : ℤ) * 2 ^ (-30 : ℤ) := by norm_num
            _ ≤ 2 ^ (84 : ℤ) * s := mul_le_mul_of_nonneg_left hs1 (by positivity))
    exact ⟨c, hc, le_trans (by positivity) hc1, fun _ => lt_of_lt_of_le (by positivity) hc1⟩
  · have hx0 : x = 0 := by omega
    subst hx0
    have ha' : F64.ofNat 0 = F64.fin 0 := by simp [F64.ofNat, f64round]
    rw [ha'] at ha
    injection ha with ha
    subst ha
    have e0 : f64round ((0 : ℚ) / 1024) = F64.fin 0 := by simp [f64round]
    rw [e0]
    have e2 : F64.div (F64.fin 0) (F64.fin s) = F64.fin 0 := by
      simp [F64.div, hspos.ne.symm, f64round]
    rw [e2]
    exact ⟨0, rfl, le_rfl, fun h => by omega⟩


/-! ## Network rate (C1, C2) -/

theorem netRate_eq (prev curr : Nat) (d : ℤ) :
    netRate prev curr d
      = F64.div (F64.div (F64.ofNat (subU64 curr prev)) (F64.fin 1024)) (durationSeconds d) :=
  rfl

theorem durationSeconds_one : durationSeconds 1000000000 = F64.fin 1 := by decide!

/-- C1 (counterexample): the baseline is 1000 received bytes and the interface, after
a counter reset, reads 500 (`curr < prev`); with the 1 s interval `collectStats`
reports a receive rate of `2 ^ 54` kB/s, not 0. -/
theorem collectStats_regression_spike :
    (getNetworkStats "eth0".toList
        (some "h\nh\n  eth0: 500 5 0 0 0 0 0 0 700 7 0 0 0 0 0 0\n".toList)).1 = 500 ∧
    (collectStats
        { config := { Interface := "eth0".toList, Port := 8080, Interval := 1000000000 },
          prevNetRx := 1000, prevNetTx := 700, prevCPUStat := ⟨0, 0, 0, 0, 0, 0, 0⟩ }
        { netDev := some "h\nh\n  eth0: 500 5 0 0 0 0 0 0 700 7 0 0 0 0 0 0\n".toList,
          stat := none }).2.receiveSpeed = F64.fin 18014398509481984 := by
  decide!

/-- C1 (amended): when the current read is below the stored baseline (`curr < prev`)
the rate `collectStats` computes for that direction is not clamped: it is the float64
value `float64(2 ^ 64 + curr - prev) / 1024 / seconds` of the wrapped `uint64`
difference, a finite and strictly positive number. -/
theorem netRate_regression (prev curr : Nat) (d : ℤ) (hp : prev < 2 ^ 64) (h : curr < prev)
    (h0 : 0 < d) (h1 : d < 2 ^ 63) :
    (∀ (m : Monitor) (src : Sources),
      (collectStats m src).2.receiveSpeed
        = netRate m.prevNetRx (getNetworkStats m.config.Interface src.netDev).1
            m.config.Interval ∧
      (collectStats m src).2.transmitSpeed
        = netRate m.prevNetTx (getNetworkStats m.config.Interface src.netDev).2
            m.config.Interval) ∧
    netRate prev curr d
      = F64.div (F64.div (F64.ofNat (2 ^ 64 + curr - prev)) (F64.fin 1024))
          (durationSeconds d) ∧
    ∃ r, netRate prev curr d = F64.fin r ∧ 0 < r := by
  refine ⟨fun m src => ⟨rfl, rfl⟩, ?_, ?_⟩
  · rw [netRate_eq, subU64_of_lt h hp]
  · obtain ⟨r, hr, -, hr2⟩ := rate_fin (subU64 curr prev) (subU64_lt _ _) d h0 h1
    refine ⟨r, hr, hr2 ?_⟩
    rw [subU64_of_lt h hp]
    omega

/-- C1 (witness): baseline 1000, read 500 and the 1 s interval give a positive rate. -/
theorem netRate_regression_witness :
    ∃ r, netRate 1000 500 1000000000 = F64.fin r ∧ 0 < r :=
  (netRate_regression 1000 500 1000000000 (by norm_num) (by norm_num) (by norm_num)
    (by norm_num)).2.2

/-- C2: for `uint64` counters with `curr ≥ prev` and a positive interval, the rate
`collectStats` computes for a direction is the float64 value
`float64(curr - prev) / 1024 / seconds` of the true difference, finite and `≥ 0`; with
the 1 s interval of `main` and a difference below `2 ^ 53` it is exactly
`(curr - prev) / 1024`. -/
theorem netRate_of_le (prev curr : Nat) (d : ℤ) (hc : curr < 2 ^ 64) (h : prev ≤ curr)
    (h0 : 0 < d) (h1 : d < 2 ^ 63) :
    (∀ (m : Monitor) (src : Sources),
      (collectStats m src).2.receiveSpeed
        = netRate m.prevNetRx (getNetworkStats m.config.Interface src.netDev).1
            m.config.Interval ∧
      (collectStats m src).2.transmitSpeed
        = netRate m.prevNetTx (getNetworkStats m.config.Interface src.netDev).2
            m.config.Interval) ∧
    netRate prev curr d
      = F64.div (F64.div (F64.ofNat (curr - prev)) (F64.fin 1024)) (durationSeconds d) ∧
    (∃ r, netRate prev curr d = F64.fin r ∧ 0 ≤ r) ∧
    (d = 1000000000 → curr - prev < 2 ^ 53 →
      netRate prev curr d = F64.fin (((curr - prev : ℕ) : ℚ) / 1024)) := by
  refine ⟨fun m src => ⟨rfl, rfl⟩, ?_, ?_, ?_⟩
  · rw [netRate_eq, subU64_of_le h hc]
  · obtain ⟨r, hr, hr1, -⟩ := rate_fin (subU64 curr prev) (subU64_lt _ _) d h0 h1
    exact ⟨r, hr, hr1⟩
  · intro hd hx
    subst hd
    rw [netRate_eq, subU64_of_le h hc, durationSeconds_one, ofNat_exact _ hx]
    have hex : f64round (((curr - prev : ℕ) : ℚ) / 1024)
        = F64.fin (((curr - prev : ℕ) : ℚ) / 1024) := by
      have hq : f64roundQ (((curr - prev : ℕ) : ℚ) / 1024) = ((curr - prev : ℕ) : ℚ) / 1024 := by
        have := f64roundQ_exact ((curr - prev : ℕ) : ℤ) (-10)
          (by rw [abs_of_nonneg (by positivity)]; exact_mod_cast hx) (by norm_num)
        have e : (((curr - prev : ℕ) : ℤ) : ℚ) * 2 ^ (-10 : ℤ) = ((curr - prev : ℕ) : ℚ) / 1024 := by
          rw [div_eq_mul_inv]
          norm_num
        rwa [e] at this
      rw [f64round_eq, hq, if_neg]
      have hx2 : ((curr - prev : ℕ) : ℚ) < 2 ^ 53 := by exact_mod_cast hx
      rw [abs_of_nonneg (by positivity)]
      intro h3
      have : ((curr - prev : ℕ) : ℚ) / 1024 ≤ ((curr - prev : ℕ) : ℚ) :=
        div_le_self (by positivity) (by norm_num)
      have : (2 : ℚ) ^ 53 < 2 ^ 1024 := by norm_num
      linarith
    have e1 : F64.div (F64.fin ((curr - prev : ℕ) : ℚ)) (F64.fin 1024)
        = f64round (((curr - prev : ℕ) : ℚ) / 1024) := by simp [F64.div]
    rw [e1, hex]
    have e2 : F64.div (F64.fin (((curr - prev : ℕ) : ℚ) / 1024)) (F64.fin 1)
        = f64round (((curr - prev : ℕ) : ℚ) / 1024) := by simp [F64.div]
    rw [e2, hex]

/-- C2 (witness): baseline 1024, read 4096 and the 1 s interval give exactly 3 kB/s. -/
theorem netRate_of_le_witness :
    netRate 1024 4096 1000000000 = F64.fin (((4096 - 1024 : ℕ) : ℚ) / 1024) :=
  (netRate_of_le 1024 4096 1000000000 (by norm_num) (by norm_num) (by norm_num)
    (by norm_num)).2.2.2 rfl (by norm_num)


/-! ## CPU usage (C3, C4) -/

theorem addU64_eq (a b : Nat) : addU64 a b = (a + b) % 2 ^ 64 := rfl

theorem cpuTotal_eq (s : CPUStat) :
    cpuTotal s
      = (s.User + s.Nice + s.System + s.Idle + s.Iowait + s.Irq + s.Softirq) % 2 ^ 64 := by
  simp only [cpuTotal, addU64_eq]
  omega

theorem cpuIdle_eq (s : CPUStat) : cpuIdle s = (s.Idle + s.Iowait) % 2 ^ 64 := rfl

theorem calculateCPUUsage_eq (prev curr : CPUStat) :
    calculateCPUUsage prev curr
      = if totalDiff prev curr = 0 then F64.fin 0
        else F64.div
          (F64.mul (F64.ofNat (subU64 (totalDiff prev curr) (idleDiff prev curr))) (F64.fin 100))
          (F64.ofNat (totalDiff prev curr)) :=
  rfl

theorem f64roundQ_hundred : f64roundQ 100 = 100 := by
  have := f64roundQ_exact 100 0 (by norm_num) (by norm_num)
  simpa using this

/-- C3 (counterexample): usage above 100.  First pair: `User` falls from 5 to 4 while
`Idle` grows by 2, so `idleDiff = 2 > totalDiff = 1` and the `uint64` difference
wraps.  Second pair: all counters grow, but the float64 product by 100 is rounded up
and the quotient is `100 + 2 ^ -46`. -/
theorem calculateCPUUsage_above_hundred :
    F64.le (calculateCPUUsage ⟨5, 0, 0, 0, 0, 0, 0⟩ ⟨4, 0, 0, 2, 0, 0, 0⟩) (F64.fin 100) = false ∧
    calculateCPUUsage ⟨5, 0, 0, 0, 0, 0, 0⟩ ⟨4, 0, 0, 2, 0, 0, 0⟩
      = F64.fin 1844674407370955161600 ∧
    calculateCPUUsage ⟨0, 0, 0, 0, 0, 0, 0⟩ ⟨5764607523034237, 0, 0, 0, 0, 0, 0⟩
      = F64.fin (100 + 1 / 2 ^ 46) ∧
    F64.le (calculateCPUUsage ⟨0, 0, 0, 0, 0, 0, 0⟩ ⟨5764607523034237, 0, 0, 0, 0, 0, 0⟩)
      (F64.fin 100) = false := by
  decide!

/-- C3 (amended): `calculateCPUUsage` is never negative and never NaN, is exactly 0
when the wrapped total-tick difference is 0, and is at most 100 whenever the wrapped
idle difference does not exceed the wrapped total difference and the total difference
is below `2 ^ 53 / 100` (so that the float64 product by 100 is exact). -/
theorem calculateCPUUsage_range (prev curr : CPUStat) :
    F64.le (F64.fin 0) (calculateCPUUsage prev curr) = true ∧
    (totalDiff prev curr = 0 → calculateCPUUsage prev curr = F64.fin 0) ∧
    (idleDiff prev curr ≤ totalDiff prev curr → totalDiff prev curr * 100 < 2 ^ 53 →
      F64.le (calculateCPUUsage prev curr) (F64.fin 100) = true) := by
  rw [calculateCPUUsage_eq]
  have ht : totalDiff prev curr < 2 ^ 64 := subU64_lt _ _
  refine ⟨?_, fun h => by rw [if_pos h], ?_⟩
  · split_ifs with h0
    · simp [F64.le]
    · obtain ⟨a, ha, -, -, ha2⟩ := ofNat_u64 _ ht
      have ha3 : (0 : ℚ) < a := lt_of_lt_of_le (by norm_num) (ha2 (by omega))
      obtain ⟨b, hb, hb0, hb1, -⟩ :=
        ofNat_u64 (subU64 (totalDiff prev curr) (idleDiff prev curr)) (subU64_lt _ _)
      rw [ha, hb]
      have e1 : F64.mul (F64.fin b) (F64.fin 100) = f64round (b * 100) := rfl
      obtain ⟨c, hc, hc0, -⟩ := f64round_le_of_le (q := b * 100) (c := 2 ^ (71 : ℤ))
        (by positivity)
        (by calc b * 100 ≤ 2 ^ (64 : ℤ) * 100 := mul_le_mul_of_nonneg_right hb1 (by norm_num)
              _ ≤ 2 ^ (71 : ℤ) := by norm_num)
        (f64roundQ_pow 71 (by norm_num)) (by norm_num)
      rw [e1, hc]
      have e2 : F64.div (F64.fin c) (F64.fin a) = f64round (c / a) := by
        simp [F64.div, ha3.ne.symm]
      rw [e2]
      exact f64round_nonneg (div_nonneg hc0 ha3.le)
  · intro hle hsmall
    split_ifs with h0
    · simp [F64.le]
    · have hsub : subU64 (totalDiff prev curr) (idleDiff prev curr)
          = totalDiff prev curr - idleDiff prev curr := subU64_of_le hle ht
      rw [hsub, ofNat_exact _ (by omega), ofNat_exact _ (by omega)]
      have e1 : F64.mul (F64.fin ((totalDiff prev curr - idleDiff prev curr : ℕ) : ℚ))
          (F64.fin 100)
          = F64.ofNat ((totalDiff prev curr - idleDiff prev curr) * 100) := by
        simp [F64.mul, F64.ofNat]
      rw [e1, ofNat_exact _ (by omega)]
      have htq : (0 : ℚ) < (totalDiff prev curr : ℚ) := by
        exact_mod_cast Nat.pos_of_ne_zero h0
      have e2 : F64.div (F64.fin (((totalDiff prev curr - idleDiff prev curr) * 100 : ℕ) : ℚ))
          (F64.fin (totalDiff prev curr : ℚ))
          = f64round ((((totalDiff prev curr - idleDiff prev curr) * 100 : ℕ) : ℚ)
              / (totalDiff prev curr : ℚ)) := by
        simp [F64.div, htq.ne.symm]
      rw [e2]
      obtain ⟨r, hr, -, hr2⟩ := f64round_le_of_le
        (q := (((totalDiff prev curr - idleDiff prev curr) * 100 : ℕ) : ℚ)
              / (totalDiff prev curr : ℚ)) (c := 100)
        (by positivity)
        (by rw [div_le_iff₀ htq]
            have : (totalDiff prev curr - idleDiff prev curr) * 100
                ≤ 100 * totalDiff prev curr := by omega
            exact_mod_cast this)
        f64roundQ_hundred (by norm_num)
      rw [hr]
      simp [F64.le, hr2]

/-- C3 (witness): 20 busy ticks out of 100 stay below 100. -/
theorem calculateCPUUsage_range_witness :
    F64.le (calculateCPUUsage ⟨10, 0, 0, 90, 0, 0, 0⟩ ⟨30, 0, 0, 170, 0, 0, 0⟩) (F64.fin 100)
      = true :=
  (calculateCPUUsage_range ⟨10, 0, 0, 90, 0, 0, 0⟩ ⟨30, 0, 0, 170, 0, 0, 0⟩).2.2
    (by decide) (by decide)

/-- C4 (counterexample): the previous sample is `User = 10, Idle = 90` and the current
one is all zeros (what `getCPUStats` returns when its read fails): the specification's
deltas are `totalDelta = -100` and `idleDelta = -90`, its formula gives 10, and the
function returns 100. -/
theorem calculateCPUUsage_formula_fails :
    totalDelta ⟨10, 0, 0, 90, 0, 0, 0⟩ ⟨0, 0, 0, 0, 0, 0, 0⟩ = -100 ∧
    idleDelta ⟨10, 0, 0, 90, 0, 0, 0⟩ ⟨0, 0, 0, 0, 0, 0, 0⟩ = -90 ∧
    (100 : ℚ) * (1 - (-90) / (-100)) = 10 ∧
    calculateCPUUsage ⟨10, 0, 0, 90, 0, 0, 0⟩ ⟨0, 0, 0, 0, 0, 0, 0⟩ = F64.fin 100 := by
  decide!

/-- C4 (amended): `calculateCPUUsage` is exactly 0 when `totalDelta = 0`; when the
counters did not go backwards and nothing wraps (`0 ≤ idleDelta ≤ totalDelta`,
`0 < totalDelta`, the sum of the current counters below `2 ^ 64`) and
`100 * totalDelta < 2 ^ 53`, it is `100 * (1 - idleDelta / totalDelta)` rounded once to
float64. -/
theorem calculateCPUUsage_formula (prev curr : CPUStat) :
    (totalDelta prev curr = 0 → calculateCPUUsage prev curr = F64.fin 0) ∧
    (curr.User + curr.Nice + curr.System + curr.Idle + curr.Iowait + curr.Irq + curr.Softirq
        < 2 ^ 64 →
      0 ≤ idleDelta prev curr → idleDelta prev curr ≤ totalDelta prev curr →
      0 < totalDelta prev curr → 100 * totalDelta prev curr < 2 ^ 53 →
      calculateCPUUsage prev curr
        = f64round (100 * (1 - (idleDelta prev curr : ℚ) / (totalDelta prev curr : ℚ)))) := by
  constructor
  · intro h
    have hT : totalDiff prev curr = 0 := by
      unfold totalDiff subU64
      rw [cpuTotal_eq, cpuTotal_eq]
      unfold totalDelta at h
      omega
    rw [calculateCPUUsage_eq, if_pos hT]
  · intro hsum hi0 hile ht0 hsmall
    unfold totalDelta at hile ht0 hsmall
    unfold idleDelta at hi0 hile
    have hT : (totalDiff prev curr : ℤ) = totalDelta prev curr := by
      unfold totalDiff subU64 totalDelta
      rw [cpuTotal_eq, cpuTotal_eq]
      omega
    have hI : (idleDiff prev curr : ℤ) = idleDelta prev curr := by
      unfold idleDiff subU64 idleDelta
      rw [cpuIdle_eq, cpuIdle_eq]
      omega
    have hT' := hT
    have hI' := hI
    unfold totalDelta at hT'
    unfold idleDelta at hI'
    have hle : idleDiff prev curr ≤ totalDiff prev curr := by omega
    have hne : totalDiff prev curr ≠ 0 := by omega
    have ht : totalDiff prev curr < 2 ^ 64 := subU64_lt _ _
    rw [calculateCPUUsage_eq, if_neg hne, subU64_of_le hle ht,
      ofNat_exact _ (by omega), ofNat_exact _ (by omega)]
    have e1 : F64.mul (F64.fin ((totalDiff prev curr - idleDiff prev curr : ℕ) : ℚ))
        (F64.fin 100)
        = F64.ofNat ((totalDiff prev curr - idleDiff prev curr) * 100) := by
      simp [F64.mul, F64.ofNat]
    rw [e1, ofNat_exact _ (by omega)]
    have htq : (0 : ℚ) < (totalDiff prev curr : ℚ) := by
      exact_mod_cast Nat.pos_of_ne_zero hne
    have e2 : F64.div (F64.fin (((totalDiff prev curr - idleDiff prev curr) * 100 : ℕ) : ℚ))
        (F64.fin (totalDiff prev curr : ℚ))
        = f64round ((((totalDiff prev curr - idleDiff prev curr) * 100 : ℕ) : ℚ)
            / (totalDiff prev curr : ℚ)) := by
      simp [F64.div, htq.ne.symm]
    rw [e2]
    congr 1
    have hTq : (totalDelta prev curr : ℚ) = (totalDiff prev curr : ℚ) := by
      rw [← hT]; simp
    have hIq : (idleDelta prev curr : ℚ) = (idleDiff prev curr : ℚ) := by
      rw [← hI]; simp
    rw [hTq, hIq, Nat.cast_mul, Nat.cast_sub hle]
    field_simp
    ring

/-- C4 (witness): 20 busy ticks out of 100 follow the formula. -/
theorem calculateCPUUsage_formula_witness :
    calculateCPUUsage ⟨10, 0, 0, 90, 0, 0, 0⟩ ⟨30, 0, 0, 170, 0, 0, 0⟩
      = f64round (100 * (1 - ((idleDelta ⟨10, 0, 0, 90, 0, 0, 0⟩ ⟨30, 0, 0, 170, 0, 0, 0⟩ : ℤ) : ℚ)
          / ((totalDelta ⟨10, 0, 0, 90, 0, 0, 0⟩ ⟨30, 0, 0, 170, 0, 0, 0⟩ : ℤ) : ℚ))) :=
  (calculateCPUUsage_formula ⟨10, 0, 0, 90, 0, 0, 0⟩ ⟨30, 0, 0, 170, 0, 0, 0⟩).2
    (by decide) (by decide) (by decide) (by decide) (by decide)


/-! ## Parsing bounds -/

theorem parseUintLoop_lt : ∀ (cs : List Char) (n : Nat), n < 2 ^ 64 →
    (parseUintLoop cs n).1 < 2 ^ 64 := by
  intro cs
  induction cs with
  | nil => intro n h; simpa [parseUintLoop] using h
  | cons c cs ih =>
    intro n h
    unfold parseUintLoop
    split_ifs with h1 h2 h3
    · norm_num
    · norm_num
    · exact ih _ (by omega)
    · norm_num

theorem parseUint_lt (s : List Char) : (parseUint s).1 < 2 ^ 64 := by
  unfold parseUint
  split_ifs
  · norm_num
  · exact parseUintLoop_lt s 0 (by norm_num)

theorem getNetworkStatsLines_lt (iface : List Char) (lines : List (List Char)) :
    (getNetworkStatsLines iface lines).1 < 2 ^ 64 ∧
      (getNetworkStatsLines iface lines).2 < 2 ^ 64 := by
  induction lines with
  | nil => simp [getNetworkStatsLines]
  | cons l ls ih =>
    unfold getNetworkStatsLines
    simp only
    split_ifs
    · exact ⟨parseUint_lt _, parseUint_lt _⟩
    · exact ih
    · exact ih

theorem getNetworkStats_lt (iface : List Char) (data : Option (List Char)) :
    (getNetworkStats iface data).1 < 2 ^ 64 ∧ (getNetworkStats iface data).2 < 2 ^ 64 := by
  cases data with
  | none => simp [getNetworkStats]
  | some s => exact getNetworkStatsLines_lt _ _

/-! ## Interface selection (C5, C6) -/

theorem validInterface_iff (name : List Char) (l : List (List Char)) :
    validInterface name l = true ↔ name ∈ l := by
  induction l with
  | nil => simp [validInterface]
  | cons a t ih =>
    unfold validInterface
    by_cases h : a = name
    · simp [h]
    · simp only [h, if_false, ih, List.mem_cons]
      constructor
      · intro h1; exact Or.inr h1
      · rintro (h1 | h1)
        · exact absurd h1.symm h
        · exact h1

/-- C5: a switch-interface request whose interface name is not in the list of
`getAvailableInterfaces` is rejected with a client-error status (400 "Interface not
found" for a POST, 405 for another method) and leaves the whole state unchanged: the
selected name, both `config.Interface` copies and the network baseline. -/
theorem switchInterface_unknown (s : State) (req : SwitchRequest)
    (listing reading : Option (List Char)) (name : List Char)
    (hb : req.body = some name) (hn : name ∉ getAvailableInterfaces listing) :
    (switchInterface s req listing reading).1 = s ∧
    getSelectedInterface (switchInterface s req listing reading).1 = getSelectedInterface s ∧
    (switchInterface s req listing reading).1.em.config.Interface = s.em.config.Interface ∧
    (switchInterface s req listing reading).1.em.monitor.config.Interface
      = s.em.monitor.config.Interface ∧
    (switchInterface s req listing reading).1.em.monitor.prevNetRx = s.em.monitor.prevNetRx ∧
    (switchInterface s req listing reading).1.em.monitor.prevNetTx = s.em.monitor.prevNetTx ∧
    (req.method = "POST".toList →
      (switchInterface s req listing reading).2 = Response.interfaceNotFound) ∧
    400 ≤ (switchInterface s req listing reading).2.statusCode ∧
    (switchInterface s req listing reading).2.statusCode < 500 := by
  have hv : validInterface name (getAvailableInterfaces listing) = false := by
    rw [Bool.eq_false_iff]
    intro h
    exact hn ((validInterface_iff _ _).1 h)
  have key : switchInterface s req listing reading
      = if req.method ≠ "POST".toList then (s, Response.methodNotAllowed)
        else (s, Response.interfaceNotFound) := by
    unfold switchInterface
    rw [hb]
    simp only [hv]
    rfl
  rw [key]
  by_cases hm : req.method = "POST".toList
  · rw [if_neg (not_not.mpr hm)]
    exact ⟨rfl, rfl, rfl, rfl, rfl, rfl, fun _ => rfl,
      (by decide : 400 ≤ Response.interfaceNotFound.statusCode),
      (by decide : Response.interfaceNotFound.statusCode < 500)⟩
  · rw [if_pos hm]
    exact ⟨rfl, rfl, rfl, rfl, rfl, rfl, fun h => absurd h hm,
      (by decide : 400 ≤ Response.methodNotAllowed.statusCode),
      (by decide : Response.methodNotAllowed.statusCode < 500)⟩

/-- C5 (witness): posting the unknown name `wlan0` leaves the state as it was. -/
theorem switchInterface_unknown_witness :
    (switchInterface stateEth0 ⟨"POST".toList, some "wlan0".toList⟩ (some netDevThree)
      (some netDevThree)).1 = stateEth0 :=
  (switchInterface_unknown stateEth0 ⟨"POST".toList, some "wlan0".toList⟩ (some netDevThree)
    (some netDevThree) "wlan0".toList rfl (by decide!)).1

/-- After a successful switch-interface request the baseline `(prevNetRx, prevNetTx)`
is what `getNetworkStats` returns at that moment with the new name configured, and on
the next tick `collectStats` computes each rate from that baseline and what
`getNetworkStats` returns then.  Whether these are the counters of the new interface
is another matter: see `switchInterface_baseline_of_other_interface`. -/
theorem switchInterface_baseline (s : State) (req : SwitchRequest)
    (listing reading : Option (List Char)) (name : List Char)
    (hm : req.method = "POST".toList) (hb : req.body = some name)
    (hn : name ∈ getAvailableInterfaces listing) :
    (switchInterface s req listing reading).2 = Response.success ∧
    (switchInterface s req listing reading).1.em.monitor.config.Interface = name ∧
    (switchInterface s req listing reading).1.em.monitor.config.Interval
      = s.em.monitor.config.Interval ∧
    (switchInterface s req listing reading).1.em.monitor.prevNetRx
      = (getNetworkStats name reading).1 ∧
    (switchInterface s req listing reading).1.em.monitor.prevNetTx
      = (getNetworkStats name reading).2 ∧
    ∀ src : Sources,
      (collectStats (switchInterface s req listing reading).1.em.monitor src).2.receiveSpeed
        = netRate (getNetworkStats name reading).1 (getNetworkStats name src.netDev).1
            s.em.monitor.config.Interval ∧
      (collectStats (switchInterface s req listing reading).1.em.monitor src).2.transmitSpeed
        = netRate (getNetworkStats name reading).2 (getNetworkStats name src.netDev).2
            s.em.monitor.config.Interval ∧
      ((getNetworkStats name reading).1 ≤ (getNetworkStats name src.netDev).1 →
        (collectStats (switchInterface s req listing reading).1.em.monitor src).2.receiveSpeed
          = F64.div (F64.div (F64.ofNat ((getNetworkStats name src.netDev).1
                - (getNetworkStats name reading).1)) (F64.fin 1024))
              (durationSeconds s.em.monitor.config.Interval)) := by
  have hv : validInterface name (getAvailableInterfaces listing) = true :=
    (validInterface_iff _ _).2 hn
  have key : switchInterface s req listing reading
      = ({ em := { config := { s.em.config with Interface := name },
                   monitor := { config := { s.em.monitor.config with Interface := name },
                                prevNetRx := (getNetworkStats name reading).1,
                                prevNetTx := (getNetworkStats name reading).2,
                                prevCPUStat := s.em.monitor.prevCPUStat } },
           currentSelectedInterface := name }, Response.success) := by
    unfold switchInterface
    rw [hb]
    simp only [hm, hv, setSelectedInterface]
    rfl
  rw [key]
  refine ⟨rfl, rfl, rfl, rfl, rfl, fun src => ⟨rfl, rfl, ?_⟩⟩
  intro hle
  have hlt := (getNetworkStats_lt name src.netDev).1
  show netRate (getNetworkStats name reading).1 (getNetworkStats name src.netDev).1
      s.em.monitor.config.Interval = _
  rw [netRate_eq, subU64_of_le hle hlt]

/-- Posting `veth0` sets the baseline to what `getNetworkStats` returns for `veth0`. -/
theorem switchInterface_baseline_witness :
    (switchInterface stateEth0 ⟨"POST".toList, some "veth0".toList⟩ (some netDevThree)
      (some netDevThree)).1.em.monitor.prevNetRx
      = (getNetworkStats "veth0".toList (some netDevThree)).1 :=
  (switchInterface_baseline stateEth0 ⟨"POST".toList, some "veth0".toList⟩ (some netDevThree)
    (some netDevThree) "veth0".toList rfl rfl (by decide!)).2.2.2.1

/-- C6 (failing input): with `veth0` selected (baseline 111 and 222, its counters) and
the lines of `veth0` and `eth0` in this order, a request for the available interface
`eth0` succeeds and selects `eth0`, whose own line carries 333 and 444; the baseline
it stores is 111 and 222, the counters of the old interface `veth0`, because
`getNetworkStats` takes the first line that contains `eth0:`.  On the next tick,
where the counters of `eth0` have not moved and `veth0` has received 1024 and sent
2048 bytes, the rates are 1 and 2 kB/s, those of `veth0`; computed from the counters
of `eth0` at the switch and at the tick they are 0. -/
theorem switchInterface_baseline_of_other_interface :
    "eth0".toList ∈ getAvailableInterfaces (some netDevThree) ∧
    (switchInterface stateVeth0 ⟨"POST".toList, some "eth0".toList⟩ (some netDevThree)
      (some netDevThree)).2 = Response.success ∧
    (switchInterface stateVeth0 ⟨"POST".toList, some "eth0".toList⟩ (some netDevThree)
      (some netDevThree)).1.em.monitor.config.Interface = "eth0".toList ∧
    ownCounters "eth0".toList (some netDevThree) = (333, 444) ∧
    ownCounters "veth0".toList (some netDevThree) = (111, 222) ∧
    (switchInterface stateVeth0 ⟨"POST".toList, some "eth0".toList⟩ (some netDevThree)
      (some netDevThree)).1.em.monitor.prevNetRx = 111 ∧
    (switchInterface stateVeth0 ⟨"POST".toList, some "eth0".toList⟩ (some netDevThree)
      (some netDevThree)).1.em.monitor.prevNetTx = 222 ∧
    ownCounters "eth0".toList (some netDevThreeLater) = (333, 444) ∧
    ownCounters "veth0".toList (some netDevThreeLater) = (1135, 2270) ∧
    (collectStats (switchInterface stateVeth0 ⟨"POST".toList, some "eth0".toList⟩
      (some netDevThree) (some netDevThree)).1.em.monitor
      ⟨some netDevThreeLater, none⟩).2.receiveSpeed = F64.fin 1 ∧
    (collectStats (switchInterface stateVeth0 ⟨"POST".toList, some "eth0".toList⟩
      (some netDevThree) (some netDevThree)).1.em.monitor
      ⟨some netDevThreeLater, none⟩).2.transmitSpeed = F64.fin 2 ∧
    netRate (ownCounters "eth0".toList (some netDevThree)).1
      (ownCounters "eth0".toList (some netDevThreeLater)).1 1000000000 = F64.fin 0 ∧
    netRate (ownCounters "eth0".toList (some netDevThree)).2
      (ownCounters "eth0".toList (some netDevThreeLater)).2 1000000000 = F64.fin 0 := by
  decide!

/-! ## Counter reader (C7, C8) -/

/-- C7 (failing input): with the lines of `veth0` and `eth0` in this order, `eth0` is
an available interface whose own line carries 333 received and 444 transmitted bytes,
and `getNetworkStats` with `eth0` selected returns 111 and 222, the counters of the
`veth0` line, because `veth0:` contains `eth0:`. -/
theorem getNetworkStats_reads_other_line :
    getAvailableInterfaces (some netDevThree) = ["veth0".toList, "eth0".toList] ∧
    getNetworkStats "eth0".toList (some netDevThree) = (111, 222) ∧
    getNetworkStats "veth0".toList (some netDevThree) = (111, 222) := by
  decide!

/-- C8 (failing input): on a host with only the loopback device no interface is
available and the selection stays empty, yet `getNetworkStats` returns the counters
of `lo`, because every interface line contains `:`. -/
theorem getNetworkStats_unselected_reads_loopback :
    getAvailableInterfaces (some netDevLoopback) = [] ∧
    getNetworkStats [] (some netDevLoopback) = (1000, 2000) := by
  decide!



/-! ## Memory (C9) -/

/-- A left fold that overwrites a component on the lines selected by `P` leaves in
it the value of the last selected line. -/
theorem foldl_last {α β : Type} (f : β → α → β) (proj : β → Nat) (P : α → Bool)
    (V : α → Nat) (hf : ∀ b a, proj (f b a) = if P a = true then V a else proj b) :
    ∀ (l : List α) (b : β),
      proj (l.foldl f b) = (((l.filter P).getLast?).map V).getD (proj b) := by
  intro l
  induction l with
  | nil => intro b; simp
  | cons a t ih =>
    intro b
    rw [List.foldl_cons, ih (f b a), hf]
    by_cases hP : P a = true
    · rw [List.filter_cons_of_pos hP]
      cases ht : t.filter P with
      | nil => simp [hP]
      | cons x xs =>
        rw [List.getLast?_cons_cons]
        cases hl : (x :: xs).getLast? with
        | none => simp at hl
        | some y => rfl
    · rw [List.filter_cons_of_neg hP]
      cases ht : t.filter P with
      | nil => simp [hP]
      | cons x xs =>
        cases hl : (x :: xs).getLast? with
        | none => simp at hl
        | some y => rfl

theorem hasPrefix_excl (l p q : List Char) (n : Nat) (hp : n ≤ p.length) (hq : n ≤ q.length)
    (hne : p.take n ≠ q.take n) (h : hasPrefix l p = true) : hasPrefix l q = false := by
  rw [Bool.eq_false_iff]
  intro h2
  unfold hasPrefix at h h2
  rw [List.isPrefixOf_iff_prefix] at h h2
  obtain ⟨t, rfl⟩ := h
  obtain ⟨u, hu⟩ := h2
  apply hne
  have h3 : (p ++ t).take n = p.take n := List.take_append_of_le_length hp
  have h4 : (q ++ u).take n = q.take n := List.take_append_of_le_length hq
  rw [← h3, ← h4, hu]

theorem memStep_total (info : MemInfo) (l : List Char) :
    (memStep info l).total
      = if (hasPrefix l "MemTotal:".toList && (memValue l).isSome) = true
        then (memValue l).getD 0 else info.total := by
  unfold memStep
  cases hv : memValue l <;> split_ifs <;> simp_all

theorem memStep_free (info : MemInfo) (l : List Char) :
    (memStep info l).free
      = if (hasPrefix l "MemFree:".toList && (memValue l).isSome) = true
        then (memValue l).getD 0 else info.free := by
  have e1 := hasPrefix_excl l "MemTotal:".toList "MemFree:".toList 4 (by decide) (by decide)
    (by decide)
  unfold memStep
  cases hv : memValue l <;> split_ifs <;> simp_all

theorem memStep_buffers (info : MemInfo) (l : List Char) :
    (memStep info l).buffers
      = if (hasPrefix l "Buffers:".toList && (memValue l).isSome) = true
        then (memValue l).getD 0 else info.buffers := by
  have e1 := hasPrefix_excl l "MemTotal:".toList "Buffers:".toList 1 (by decide) (by decide)
    (by decide)
  have e2 := hasPrefix_excl l "MemFree:".toList "Buffers:".toList 1 (by decide) (by decide)
    (by decide)
  unfold memStep
  cases hv : memValue l <;> split_ifs <;> simp_all

theorem memStep_cached (info : MemInfo) (l : List Char) :
    (memStep info l).cached
      = if (hasPrefix l "Cached:".toList && (memValue l).isSome) = true
        then (memValue l).getD 0 else info.cached := by
  have e1 := hasPrefix_excl l "MemTotal:".toList "Cached:".toList 1 (by decide) (by decide)
    (by decide)
  have e2 := hasPrefix_excl l "MemFree:".toList "Cached:".toList 1 (by decide) (by decide)
    (by decide)
  have e3 := hasPrefix_excl l "Buffers:".toList "Cached:".toList 1 (by decide) (by decide)
    (by decide)
  unfold memStep
  cases hv : memValue l <;> split_ifs <;> simp_all

theorem memStep_sreclaimable (info : MemInfo) (l : List Char) :
    (memStep info l).sreclaimable
      = if (hasPrefix l "SReclaimable:".toList && (memValue l).isSome) = true
        then (memValue l).getD 0 else info.sreclaimable := by
  have e1 := hasPrefix_excl l "MemTotal:".toList "SReclaimable:".toList 1 (by decide)
    (by decide) (by decide)
  have e2 := hasPrefix_excl l "MemFree:".toList "SReclaimable:".toList 1 (by decide)
    (by decide) (by decide)
  have e3 := hasPrefix_excl l "Buffers:".toList "SReclaimable:".toList 1 (by decide)
    (by decide) (by decide)
  have e4 := hasPrefix_excl l "Cached:".toList "SReclaimable:".toList 1 (by decide)
    (by decide) (by decide)
  unfold memStep
  cases hv : memValue l <;> split_ifs <;> simp_all

theorem givenValue_eq (key : List Char) (lines : List (List Char)) :
    givenValue key lines
      = (((lines.filter (fun l => hasPrefix l key && (memValue l).isSome)).getLast?).map
          (fun l => (memValue l).getD 0)).getD 0 := by
  unfold givenValue
  cases (lines.filter (fun l => hasPrefix l key && (memValue l).isSome)).getLast? <;> rfl

theorem memValue_lt (l : List Char) : (memValue l).getD 0 < 2 ^ 64 := by
  unfold memValue
  simp only
  split_ifs
  · exact parseUint_lt _
  · norm_num

theorem givenValue_lt (key : List Char) (lines : List (List Char)) :
    givenValue key lines < 2 ^ 64 := by
  unfold givenValue
  split
  · exact memValue_lt _
  · norm_num


theorem getMemoryInfo_fields (s : List Char) :
    (getMemoryInfo (some s)).total = givenValue "MemTotal:".toList (split '\n' s) ∧
    (getMemoryInfo (some s)).free = givenValue "MemFree:".toList (split '\n' s) ∧
    (getMemoryInfo (some s)).buffers = givenValue "Buffers:".toList (split '\n' s) ∧
    (getMemoryInfo (some s)).cached = givenValue "Cached:".toList (split '\n' s) ∧
    (getMemoryInfo (some s)).sreclaimable
      = givenValue "SReclaimable:".toList (split '\n' s) := by
  refine ⟨?_, ?_, ?_, ?_, ?_⟩
  · rw [givenValue_eq]
    exact foldl_last memStep MemInfo.total _ _ memStep_total (split '\n' s) ⟨0, 0, 0, 0, 0, 0⟩
  · rw [givenValue_eq]
    exact foldl_last memStep MemInfo.free _ _ memStep_free (split '\n' s) ⟨0, 0, 0, 0, 0, 0⟩
  · rw [givenValue_eq]
    exact foldl_last memStep MemInfo.buffers _ _ memStep_buffers (split '\n' s)
      ⟨0, 0, 0, 0, 0, 0⟩
  · rw [givenValue_eq]
    exact foldl_last memStep MemInfo.cached _ _ memStep_cached (split '\n' s)
      ⟨0, 0, 0, 0, 0, 0⟩
  · rw [givenValue_eq]
    exact foldl_last memStep MemInfo.sreclaimable _ _ memStep_sreclaimable (split '\n' s)
      ⟨0, 0, 0, 0, 0, 0⟩

theorem memUsed_unfold (s : List Char) :
    (getMemoryInfo (some s)).used
      = subU64 (subU64 (subU64 (subU64 (getMemoryInfo (some s)).total
            (getMemoryInfo (some s)).free) (getMemoryInfo (some s)).buffers)
          (getMemoryInfo (some s)).cached) (getMemoryInfo (some s)).sreclaimable :=
  rfl

/-- C9 (counterexample): the text gives total 1000, free 100, buffers 0, cached 950
and reclaimable 0, whose difference is -50, and the `used` entry is `2 ^ 64 - 50`. -/
theorem getMemoryInfo_used_wraps :
    givenValue "MemTotal:".toList (split '\n' memInfoOver) = 1000 ∧
    givenValue "MemFree:".toList (split '\n' memInfoOver) = 100 ∧
    givenValue "Buffers:".toList (split '\n' memInfoOver) = 0 ∧
    givenValue "Cached:".toList (split '\n' memInfoOver) = 950 ∧
    givenValue "SReclaimable:".toList (split '\n' memInfoOver) = 0 ∧
    (1000 : ℤ) - 100 - 0 - 950 - 0 = -50 ∧
    (getMemoryInfo (some memInfoOver)).used = 18446744073709551566 := by
  decide!

/-- C9 (amended): for every memory text, with total, free, buffers, cached and
reclaimable the values the text gives on its `MemTotal:`, `MemFree:`, `Buffers:`,
`Cached:` and `SReclaimable:` lines, the `used` entry of `getMemoryInfo` is
`total - free - buffers - cached - reclaimable` modulo `2 ^ 64`, which is the exact
difference whenever `free + buffers + cached + reclaimable ≤ total`; for the scenario
of the specification it is 4200000. -/
theorem getMemoryInfo_used (s : List Char) (total free buffers cached reclaimable : Nat)
    (ht : givenValue "MemTotal:".toList (split '\n' s) = total)
    (hf : givenValue "MemFree:".toList (split '\n' s) = free)
    (hb : givenValue "Buffers:".toList (split '\n' s) = buffers)
    (hc : givenValue "Cached:".toList (split '\n' s) = cached)
    (hr : givenValue "SReclaimable:".toList (split '\n' s) = reclaimable) :
    (((getMemoryInfo (some s)).used : ℕ) : ℤ)
      = ((total : ℤ) - free - buffers - cached - reclaimable) % 2 ^ 64 ∧
    (free + buffers + cached + reclaimable ≤ total →
      (getMemoryInfo (some s)).used = total - free - buffers - cached - reclaimable) ∧
    (getMemoryInfo (some memInfoScenario)).used = 4200000 := by
  obtain ⟨h1, h2, h3, h4, h5⟩ := getMemoryInfo_fields s
  have b1 := givenValue_lt "MemTotal:".toList (split '\n' s)
  have b2 := givenValue_lt "MemFree:".toList (split '\n' s)
  have b3 := givenValue_lt "Buffers:".toList (split '\n' s)
  have b4 := givenValue_lt "Cached:".toList (split '\n' s)
  have b5 := givenValue_lt "SReclaimable:".toList (split '\n' s)
  rw [ht] at h1 b1
  rw [hf] at h2 b2
  rw [hb] at h3 b3
  rw [hc] at h4 b4
  rw [hr] at h5 b5
  rw [memUsed_unfold, h1, h2, h3, h4, h5]
  refine ⟨?_, ?_, by decide!⟩
  · unfold subU64
    omega
  · intro hle
    unfold subU64
    omega

/-- C9 (witness): the scenario of the specification. -/
theorem getMemoryInfo_used_witness :
    (getMemoryInfo (some memInfoScenario)).used = 8000000 - 2000000 - 100000 - 1500000 - 200000 :=
  (getMemoryInfo_used memInfoScenario 8000000 2000000 100000 1500000 200000 (by decide!)
    (by decide!) (by decide!) (by decide!) (by decide!)).2.1 (by norm_num)

/-! ## Disk (C10) -/

theorem filter_filter_map_cons {α β : Type} (f : α → β) (p q : β → Bool) (l : α)
    (ls : List α) :
    (((l :: ls).map f).filter p).filter q
      = if (p (f l) && q (f l)) = true then f l :: (((ls.map f).filter p).filter q)
        else (((ls.map f).filter p).filter q) := by
  by_cases hp : p (f l) = true <;> by_cases hq : q (f l) = true <;>
    simp [List.filter_cons, hp, hq]

theorem diskStep_eq (acc : DiskInfo) (raw : List Char) :
    diskStep acc raw
      = if (decide (6 ≤ (fields (trimSpace raw)).length) && dfCounted (fields (trimSpace raw)))
            = true
        then { total := addU64 acc.total (dfColumn 1 (fields (trimSpace raw)))
               used := addU64 acc.used (dfColumn 2 (fields (trimSpace raw)))
               available := addU64 acc.available (dfColumn 3 (fields (trimSpace raw))) }
        else acc := by
  unfold diskStep
  simp only []
  by_cases h0 : trimSpace raw = []
  · rw [if_pos h0, h0]
    rfl
  · rw [if_neg h0]
    by_cases h6 : (fields (trimSpace raw)).length < 6
    · have h6' : decide (6 ≤ (fields (trimSpace raw)).length) = false := by
        rw [decide_eq_false_iff_not]; omega
      rw [if_pos h6, h6']
      rfl
    · have h6' : decide (6 ≤ (fields (trimSpace raw)).length) = true := by
        rw [decide_eq_true_iff]; omega
      rw [if_neg h6, h6', Bool.true_and]
      unfold dfCounted
      by_cases hx : excludedFilesystem ((fields (trimSpace raw)).getD 0 []) = true
      · rw [if_pos hx, hx]
        rfl
      · rw [if_neg hx]
        rw [Bool.not_eq_true] at hx
        rw [hx]
        rfl

/-- The left fold of `getDiskInfo` adds, modulo `2 ^ 64`, the columns of the counted rows. -/
theorem foldl_diskStep (lines : List (List Char)) :
    ∀ acc : DiskInfo, acc.total < 2 ^ 64 → acc.used < 2 ^ 64 → acc.available < 2 ^ 64 →
      (lines.foldl diskStep acc).total
        = (acc.total + ((((lines.map (fun l => fields (trimSpace l))).filter
            (fun fs => decide (6 ≤ fs.length))).filter dfCounted).map (dfColumn 1)).sum)
            % 2 ^ 64 ∧
      (lines.foldl diskStep acc).used
        = (acc.used + ((((lines.map (fun l => fields (trimSpace l))).filter
            (fun fs => decide (6 ≤ fs.length))).filter dfCounted).map (dfColumn 2)).sum)
            % 2 ^ 64 ∧
      (lines.foldl diskStep acc).available
        = (acc.available + ((((lines.map (fun l => fields (trimSpace l))).filter
            (fun fs => decide (6 ≤ fs.length))).filter dfCounted).map (dfColumn 3)).sum)
            % 2 ^ 64 := by
  induction lines with
  | nil =>
    intro acc h1 h2 h3
    simp only [List.foldl_nil, List.map_nil, List.filter_nil, List.sum_nil, Nat.add_zero]
    exact ⟨(Nat.mod_eq_of_lt h1).symm, (Nat.mod_eq_of_lt h2).symm, (Nat.mod_eq_of_lt h3).symm⟩
  | cons l ls ih =>
    intro acc h1 h2 h3
    rw [List.foldl_cons, diskStep_eq, filter_filter_map_cons]
    by_cases hc : (decide (6 ≤ (fields (trimSpace l)).length) && dfCounted (fields (trimSpace l)))
        = true
    · rw [if_pos hc, if_pos hc]
      obtain ⟨i1, i2, i3⟩ := ih
        { total := addU64 acc.total (dfColumn 1 (fields (trimSpace l)))
          used := addU64 acc.used (dfColumn 2 (fields (trimSpace l)))
          available := addU64 acc.available (dfColumn 3 (fields (trimSpace l))) }
        (Nat.mod_lt _ (by norm_num)) (Nat.mod_lt _ (by norm_num)) (Nat.mod_lt _ (by norm_num))
      rw [i1, i2, i3]
      simp only [List.map_cons, List.sum_cons, addU64]
      refine ⟨?_, ?_, ?_⟩ <;> omega
    · rw [if_neg hc, if_neg hc]
      exact ih acc h1 h2 h3

/-- C10 (counterexample): first output, a row of `/dev/sdb1` (no exclusion pattern
matches) with total 100 whose used and available columns are `-`: the returned total
is 0, not 100.  Second output, two counted rows whose totals add up to `2 ^ 64`: the
returned total is 0. -/
theorem getDiskInfo_not_column_sum :
    (dfRows dfDash).map (fun fs => (excludedFilesystem (fs.getD 0 []), dfColumn 1 fs))
      = [(false, 100)] ∧
    (getDiskInfo (some dfDash)).total = 0 ∧
    (dfRows dfHuge).map (fun fs => (excludedFilesystem (fs.getD 0 []), dfColumn 1 fs))
      = [(false, 18446744073709551615), (false, 1)] ∧
    (getDiskInfo (some dfHuge)).total = 0 := by
  decide!

/-- C10 (amended): for every `df` output, the total, used and available that
`getDiskInfo` returns are the sums, modulo `2 ^ 64`, of those three columns over
exactly the data rows (lines after the header with at least six fields) whose
filesystem field matches no exclusion pattern and whose three columns are all valid
unsigned 64-bit decimals; any other line, in particular a row whose filesystem field
matches a pattern, leaves the running sums unchanged.  For the rows of `/dev/sda1` and
`tmpfs` the result is the three values of `/dev/sda1`. -/
theorem getDiskInfo_sums (s : List Char) :
    (getDiskInfo (some s)).total
      = (((dfRows s).filter dfCounted).map (dfColumn 1)).sum % 2 ^ 64 ∧
    (getDiskInfo (some s)).used
      = (((dfRows s).filter dfCounted).map (dfColumn 2)).sum % 2 ^ 64 ∧
    (getDiskInfo (some s)).available
      = (((dfRows s).filter dfCounted).map (dfColumn 3)).sum % 2 ^ 64 ∧
    (∀ (acc : DiskInfo) (raw : List Char),
      excludedFilesystem ((fields (trimSpace raw)).getD 0 []) = true → diskStep acc raw = acc) ∧
    (∀ (acc : DiskInfo) (raw : List Char),
      dfCounted (fields (trimSpace raw)) = false → diskStep acc raw = acc) ∧
    getDiskInfo (some dfScenario) = ⟨102400000, 40960000, 61440000⟩ := by
  obtain ⟨h1, h2, h3⟩ := foldl_diskStep ((split '\n' s).drop 1) ⟨0, 0, 0⟩ (by norm_num)
    (by norm_num) (by norm_num)
  simp only [Nat.zero_add] at h1 h2 h3
  refine ⟨h1, h2, h3, ?_, ?_, by decide!⟩
  · intro acc raw hx
    rw [diskStep_eq, if_neg]
    unfold dfCounted
    rw [hx]
    simp
  · intro acc raw hx
    rw [diskStep_eq, if_neg]
    rw [hx]
    simp


/-- C10 (witness): a `tmpfs` row leaves the running sums unchanged. -/
theorem getDiskInfo_sums_witness :
    diskStep ⟨102400000, 40960000, 61440000⟩
        "tmpfs            4096000        0   4096000   0% /dev/shm".toList
      = ⟨102400000, 40960000, 61440000⟩ :=
  (getDiskInfo_sums dfScenario).2.2.2.1 ⟨102400000, 40960000, 61440000⟩
    "tmpfs            4096000        0   4096000   0% /dev/shm".toList (by decide!)


/-! ## Interface listing (C11) -/

theorem split_ne_nil (sep : Char) (l : List Char) : split sep l ≠ [] := by
  cases l with
  | nil => simp [split]
  | cons c cs =>
    unfold split
    split_ifs
    · simp
    · cases split sep cs <;> simp

theorem split_length_iff (sep : Char) (l : List Char) :
    2 ≤ (split sep l).length ↔ sep ∈ l := by
  induction l with
  | nil => simp [split]
  | cons c cs ih =>
    unfold split
    by_cases h : c = sep
    · simp only [h, if_true, List.length_cons, List.mem_cons, true_or, iff_true]
      have := split_ne_nil sep cs
      have : 0 < (split sep cs).length := List.length_pos.mpr this
      omega
    · simp only [h, if_false, List.mem_cons]
      have hne : ¬ sep = c := fun e => h e.symm
      simp only [hne, false_or]
      rw [← ih]
      cases hs : split sep cs with
      | nil => exact absurd hs (split_ne_nil sep cs)
      | cons a t => simp

theorem split_head (sep : Char) (l : List Char) :
    (split sep l).headD [] = l.takeWhile (fun c => c != sep) := by
  induction l with
  | nil => simp [split]
  | cons c cs ih =>
    unfold split
    by_cases h : c = sep
    · simp [h]
    · simp only [h, if_false]
      have hb : List.takeWhile (fun c => c != sep) (c :: cs)
          = c :: List.takeWhile (fun c => c != sep) cs := by
        simp [List.takeWhile_cons, h]
      rw [hb, ← ih]
      cases hs : split sep cs with
      | nil => exact absurd hs (split_ne_nil sep cs)
      | cons a t => simp

theorem mem_dropWhile_of_false {p : Char → Bool} {a : Char} :
    ∀ {l : List Char}, a ∈ l → p a = false → a ∈ l.dropWhile p := by
  intro l
  induction l with
  | nil => intro h; simp at h
  | cons c cs ih =>
    intro h hp
    by_cases hc : p c = true
    · rw [List.dropWhile_cons_of_pos hc]
      rcases List.mem_cons.1 h with rfl | h'
      · rw [hp] at hc; exact absurd hc (by simp)
      · exact ih h' hp
    · rw [List.dropWhile_cons_of_neg hc]
      exact h

theorem trimSpace_ne_nil {a : Char} {l : List Char} (h : a ∈ l) (hp : isSpace a = false) :
    trimSpace l ≠ [] := by
  have h1 : a ∈ l.dropWhile isSpace := mem_dropWhile_of_false h hp
  have h2 : a ∈ ((l.dropWhile isSpace).reverse).dropWhile isSpace :=
    mem_dropWhile_of_false (List.mem_reverse.2 h1) hp
  have h3 : a ∈ trimSpace l := List.mem_reverse.2 h2
  intro h4
  rw [h4] at h3
  simp at h3

theorem interfaceOfLine_eq (line : List Char) :
    interfaceOfLine line
      = (nameOnLine line).filter (fun n => decide (n ≠ "lo".toList)) := by
  unfold interfaceOfLine nameOnLine
  by_cases hc : ':' ∈ line
  · have h1 : trimSpace line ≠ [] := trimSpace_ne_nil hc (by decide)
    have h2 : 2 ≤ (split ':' line).length := (split_length_iff _ _).2 hc
    simp only [h1, if_false, h2, if_true, hc, split_head]
    by_cases hlo : trimSpace (List.takeWhile (fun c => c != ':') line) = "lo".toList
    · simp [hlo, Option.filter]
    · simp [hlo, Option.filter]
  · have h2 : ¬ 2 ≤ (split ':' line).length := fun h => hc ((split_length_iff _ _).1 h)
    simp only [h2, if_false, hc]
    split_ifs <;> rfl

theorem filterMap_filter_option {α β : Type} (f : α → Option β) (p : β → Bool) (l : List α) :
    l.filterMap (fun a => (f a).filter p) = (l.filterMap f).filter p := by
  induction l with
  | nil => rfl
  | cons a t ih =>
    rw [List.filterMap_cons, List.filterMap_cons]
    cases hf : f a with
    | none => exact ih
    | some b =>
      by_cases hp : p b = true
      · have e : Option.filter p (some b) = some b := by simp [Option.filter, hp]
        simp only [e]
        rw [List.filter_cons_of_pos hp, ih]
      · have e : Option.filter p (some b) = none := by simp [Option.filter, hp]
        simp only [e]
        rw [List.filter_cons_of_neg hp, ih]

/-- C11: `getAvailableInterfaces` returns, in the order of the lines after the two
header lines, the name found on each line that has one (the text before its first
colon, trimmed), once per line, leaving out exactly the names equal to `lo`; the
result never contains `lo`, and it is empty when the source cannot be read. -/
theorem getAvailableInterfaces_spec (s : List Char) :
    getAvailableInterfaces (some s)
      = (((split '\n' s).drop 2).filterMap nameOnLine).filter
          (fun n => decide (n ≠ "lo".toList)) ∧
    "lo".toList ∉ getAvailableInterfaces (some s) ∧
    getAvailableInterfaces none = [] := by
  have h : getAvailableInterfaces (some s)
      = (((split '\n' s).drop 2).filterMap nameOnLine).filter
          (fun n => decide (n ≠ "lo".toList)) := by
    show List.filterMap interfaceOfLine ((split '\n' s).drop 2) = _
    rw [← filterMap_filter_option]
    congr 1
    funext line
    exact interfaceOfLine_eq line
  refine ⟨h, ?_, rfl⟩
  rw [h]
  intro hmem
  have := (List.mem_filter.1 hmem).2
  simp at this


/-! ## Usage percentages (C12) -/

/-- C12 (failing input): when `/proc/meminfo` cannot be read, or the `df` command
fails, the total and the used value are 0 and the percentage expression of
`collectStats` is `0 * 100 / 0`, that is NaN, published as `NaN`; the zero value 0
would be published as `0.00`. -/
theorem usage_of_unavailable_source :
    (getMemoryInfo none).total = 0 ∧ (getMemoryInfo none).used = 0 ∧
    memUsage none = F64.nan ∧ formatFloat2 (memUsage none) = "NaN".toList ∧
    (getDiskInfo none).total = 0 ∧ (getDiskInfo none).used = 0 ∧
    diskUsage none = F64.nan ∧ formatFloat2 (diskUsage none) = "NaN".toList ∧
    formatFloat2 (F64.fin 0) = "0.00".toList := by
  decide!

/-! ## CPU reader (C13) -/

theorem cpuStatOfFields_eq (fs : List (List Char)) (h : 8 ≤ fs.length) :
    cpuStatOfFields fs
      = some
          { User := (parseUint (fs.getD 1 [])).1
            Nice := (parseUint (fs.getD 2 [])).1
            System := (parseUint (fs.getD 3 [])).1
            Idle := (parseUint (fs.getD 4 [])).1
            Iowait := (parseUint (fs.getD 5 [])).1
            Irq := (parseUint (fs.getD 6 [])).1
            Softirq := (parseUint (fs.getD 7 [])).1 } := by
  rcases fs with _ | ⟨a0, _ | ⟨a1, _ | ⟨a2, _ | ⟨a3, _ | ⟨a4, _ | ⟨a5, _ | ⟨a6, _ | ⟨a7, t⟩⟩⟩⟩⟩⟩⟩⟩
  all_goals first
    | (simp at h; done)
    | (simp only [List.length_cons] at h; omega)
    | simp [cpuStatOfFields]

theorem getCPUStatsLinesChecked_eq (lines : List (List Char)) :
    getCPUStatsLinesChecked lines = some (getCPUStatsLines lines) := by
  induction lines with
  | nil => rfl
  | cons l ls ih =>
    unfold getCPUStatsLinesChecked getCPUStatsLines
    simp only
    split_ifs with h1 h2
    · exact cpuStatOfFields_eq _ h2
    · exact ih
    · exact ih

theorem getCPUStatsLines_of_none (lines : List (List Char))
    (h : ∀ l ∈ lines, cpuLine l = false) : getCPUStatsLines lines = ⟨0, 0, 0, 0, 0, 0, 0⟩ := by
  induction lines with
  | nil => rfl
  | cons l ls ih =>
    have hl := h l (List.mem_cons_self _ _)
    have hls := ih (fun x hx => h x (List.mem_cons_of_mem _ hx))
    unfold cpuLine at hl
    unfold getCPUStatsLines
    simp only
    split_ifs with h1 h2
    · rw [h1, decide_eq_true h2] at hl
      simp at hl
    · exact hls
    · exact hls

theorem getCPUStatsLines_of_first (pre : List (List Char)) (l : List Char)
    (post : List (List Char)) (hpre : ∀ x ∈ pre, cpuLine x = false) (hl : cpuLine l = true) :
    getCPUStatsLines (pre ++ l :: post)
      = { User := (parseUint ((fields l).getD 1 [])).1
          Nice := (parseUint ((fields l).getD 2 [])).1
          System := (parseUint ((fields l).getD 3 [])).1
          Idle := (parseUint ((fields l).getD 4 [])).1
          Iowait := (parseUint ((fields l).getD 5 [])).1
          Irq := (parseUint ((fields l).getD 6 [])).1
          Softirq := (parseUint ((fields l).getD 7 [])).1 } := by
  induction pre with
  | nil =>
    unfold cpuLine at hl
    rw [Bool.and_eq_true, decide_eq_true_iff] at hl
    rw [List.nil_append]
    unfold getCPUStatsLines
    simp only [hl.1, hl.2, if_true]
  | cons p ps ih =>
    have hp := hpre p (List.mem_cons_self _ _)
    have hps := ih (fun x hx => hpre x (List.mem_cons_of_mem _ hx))
    unfold cpuLine at hp
    rw [List.cons_append]
    unfold getCPUStatsLines
    simp only
    split_ifs with h1 h2
    · rw [h1, decide_eq_true h2] at hp
      simp at hp
    · exact hps
    · exact hps

/-- C13 (counterexample): the aggregate line has ten fields and its nice field is
`abc`, not a number; the result is not the zero-valued `CPUStat`: only `Nice` is 0 and
the other six counters keep their values. -/
theorem getCPUStats_bad_field_not_zero :
    (parseUint "abc".toList).2 = false ∧
    getCPUStats (some statBadField) = ⟨100, 0, 300, 400, 500, 600, 700⟩ ∧
    getCPUStats (some statBadField) ≠ ⟨0, 0, 0, 0, 0, 0, 0⟩ := by
  decide!

/-- C13 (amended): `getCPUStats` returns a value for every text and never indexes out
of range.  The result is the zero-valued `CPUStat` when the source cannot be read or
no line starts with `cpu ` and has at least 8 fields; otherwise each counter is what
`strconv.ParseUint` yields for its own field of the first such line, a field that
does not start with a digit reading as 0 without changing the other counters. -/
theorem getCPUStats_spec (data : Option (List Char)) :
    getCPUStatsChecked data = some (getCPUStats data) ∧
    getCPUStats none = ⟨0, 0, 0, 0, 0, 0, 0⟩ ∧
    (∀ s : List Char, (∀ l ∈ split '\n' s, cpuLine l = false) →
      getCPUStats (some s) = ⟨0, 0, 0, 0, 0, 0, 0⟩) ∧
    (∀ (s : List Char) (pre : List (List Char)) (l : List Char) (post : List (List Char)),
      split '\n' s = pre ++ l :: post → (∀ x ∈ pre, cpuLine x = false) → cpuLine l = true →
      getCPUStats (some s)
        = { User := (parseUint ((fields l).getD 1 [])).1
            Nice := (parseUint ((fields l).getD 2 [])).1
            System := (parseUint ((fields l).getD 3 [])).1
            Idle := (parseUint ((fields l).getD 4 [])).1
            Iowait := (parseUint ((fields l).getD 5 [])).1
            Irq := (parseUint ((fields l).getD 6 [])).1
            Softirq := (parseUint ((fields l).getD 7 [])).1 }) ∧
    parseUint [] = (0, false) ∧
    (∀ (c : Char) (cs : List Char), ¬ (48 ≤ c.toNat ∧ c.toNat ≤ 57) →
      parseUint (c :: cs) = (0, false)) := by
  refine ⟨?_, rfl, ?_, ?_, rfl, ?_⟩
  · cases data with
    | none => rfl
    | some s => exact getCPUStatsLinesChecked_eq _
  · intro s h
    exact getCPUStatsLines_of_none _ h
  · intro s pre l post hs hpre hl
    show getCPUStatsLines (split '\n' s) = _
    rw [hs]
    exact getCPUStatsLines_of_first pre l post hpre hl
  · intro c cs hc
    unfold parseUint
    rw [if_neg (by simp)]
    unfold parseUintLoop
    rw [if_neg hc]

/-- C13 (witness): a text without a line starting with `cpu ` gives the zero value. -/
theorem getCPUStats_spec_witness :
    getCPUStats (some "intr 1 2 3\nctxt 5\n".toList) = ⟨0, 0, 0, 0, 0, 0, 0⟩ :=
  (getCPUStats_spec none).2.2.1 "intr 1 2 3\nctxt 5\n".toList (by decide!)

/-! ## Round trip of the selection (C14) -/

theorem switchInterface_valid (s : State) (req : SwitchRequest)
    (listing reading : Option (List Char)) (name : List Char)
    (hm : req.method = "POST".toList) (hb : req.body = some name)
    (hn : name ∈ getAvailableInterfaces listing) :
    switchInterface s req listing reading
      = ({ em := { config := { s.em.config with Interface := name },
                   monitor := { config := { s.em.monitor.config with Interface := name },
                                prevNetRx := (getNetworkStats name reading).1,
                                prevNetTx := (getNetworkStats name reading).2,
                                prevCPUStat := s.em.monitor.prevCPUStat } },
           currentSelectedInterface := name }, Response.success) := by
  have hv : validInterface name (getAvailableInterfaces listing) = true :=
    (validInterface_iff _ _).2 hn
  unfold switchInterface
  rw [hb]
  simp only [hm, hv, setSelectedInterface]
  rfl

/-- C14: after a successful switch-interface request for an available interface, the
interfaces endpoint reports exactly the posted name as `current`
(`getSelectedInterface()` equals the posted name), whatever it lists. -/
theorem switch_then_interfaces (s : State) (req : SwitchRequest)
    (listing reading served : Option (List Char)) (name : List Char)
    (hm : req.method = "POST".toList) (hb : req.body = some name)
    (hn : name ∈ getAvailableInterfaces listing) :
    (switchInterface s req listing reading).2 = Response.success ∧
    getSelectedInterface (switchInterface s req listing reading).1 = name ∧
    (interfacesEndpoint (switchInterface s req listing reading).1 served).2 = name ∧
    (interfacesEndpoint (switchInterface s req listing reading).1 served).1
      = getAvailableInterfaces served := by
  rw [switchInterface_valid s req listing reading name hm hb hn]
  exact ⟨rfl, rfl, rfl, rfl⟩

/-- C14 (witness): posting `veth0` and then reading the interfaces endpoint. -/
theorem switch_then_interfaces_witness :
    (interfacesEndpoint
      (switchInterface stateEth0 ⟨"POST".toList, some "veth0".toList⟩ (some netDevThree)
        (some netDevThree)).1 (some netDevThree)).2 = "veth0".toList :=
  (switch_then_interfaces stateEth0 ⟨"POST".toList, some "veth0".toList⟩ (some netDevThree)
    (some netDevThree) (some netDevThree) "veth0".toList rfl rfl (by decide!)).2.2.1


/-! ## Uptime (C15) -/

/-- C15 (counterexample): the first field is `2 ^ 64` seconds, a non-negative number
that `strconv.ParseFloat` reads exactly; `int(uptime)` cannot hold it, so the days are
not `2 ^ 64 / 86400 = 213503982334601`: on amd64 the three integers are negative, on
arm64 they are those of `2 ^ 63 - 1`. -/
theorem getUptime_beyond_int :
    parseDecimalFloat "18446744073709551616.00".toList
      = some (F64.fin 18446744073709551616) ∧
    (18446744073709551616 : ℤ) / 86400 = 213503982334601 ∧
    getUptime parseDecimalFloat outOfRangeAmd64 (some uptimeHuge)
      = ⟨-106751991167300, -15, -30⟩ ∧
    getUptime parseDecimalFloat outOfRangeArm64 (some uptimeHuge)
      = ⟨106751991167300, 15, 30⟩ := by
  decide!

/-- C15 (amended): when the first field of the uptime source parses to a non-negative
float64 whose integer part `n` is below `2 ^ 63` (it fits the 64-bit `int`),
`getUptime` formats days `n / 86400`, hours `(n mod 86400) / 3600` and minutes
`(n mod 3600) / 60`, with hours in `[0, 24)`, minutes in `[0, 60)` and
`86400 d + 3600 h + 60 m ≤ n < 86400 d + 3600 h + 60 m + 60`. -/
theorem getUptime_parts (parseFloat : List Char → Option F64) (outOfRange : F64 → Int)
    (s f0 : List Char) (rest : List (List Char)) (q : ℚ) (n : ℤ)
    (hf : fields s = f0 :: rest) (hp : parseFloat f0 = some (F64.fin q)) (hq : 0 ≤ q)
    (hn : ⌊q⌋ = n) (hr : n < 2 ^ 63) :
    getUptime parseFloat outOfRange (some s)
      = ⟨n / 86400, n % 86400 / 3600, n % 3600 / 60⟩ ∧
    0 ≤ n % 86400 / 3600 ∧ n % 86400 / 3600 < 24 ∧
    0 ≤ n % 3600 / 60 ∧ n % 3600 / 60 < 60 ∧
    86400 * (n / 86400) + 3600 * (n % 86400 / 3600) + 60 * (n % 3600 / 60) ≤ n ∧
    n < 86400 * (n / 86400) + 3600 * (n % 86400 / 3600) + 60 * (n % 3600 / 60) + 60 := by
  have hn0 : 0 ≤ n := by
    rw [← hn]
    exact Int.floor_nonneg.2 hq
  refine ⟨?_, by omega, by omega, by omega, by omega, by omega, by omega⟩
  have hconv : intOfFloat outOfRange (F64.fin q) = n := by
    unfold intOfFloat
    simp only [hq, if_true, hn]
    rw [if_pos ⟨by omega, hr⟩]
  unfold getUptime
  simp only [hf, hp, hconv]
  rw [Int.tdiv_eq_ediv hn0 (by norm_num), Int.tmod_eq_emod hn0 (by norm_num),
    Int.tmod_eq_emod hn0 (by norm_num),
    Int.tdiv_eq_ediv (Int.emod_nonneg _ (by norm_num)) (by norm_num),
    Int.tdiv_eq_ediv (Int.emod_nonneg _ (by norm_num)) (by norm_num)]


/-- C15 (witness): 12345.67 seconds are 0 days, 3 hours and 25 minutes. -/
theorem getUptime_parts_witness :
    getUptime parseDecimalFloat outOfRangeAmd64 (some uptimeSample)
      = ⟨12345 / 86400, 12345 % 86400 / 3600, 12345 % 3600 / 60⟩ :=
  (getUptime_parts parseDecimalFloat outOfRangeAmd64 uptimeSample "12345.67".toList
    ["54321.00".toList] (6787103858842665 / 549755813888) 12345 (by decide!) (by decide!)
    (by norm_num) (by decide!) (by norm_num)).1

/-! ## Baseline replacement (C16) -/

theorem runTicks_sum : ∀ (srcs : List Sources) (m : Monitor),
    List.Chain (fun a b => a ≤ b) m.prevNetRx
      ((netReads m.config.Interface srcs).map Prod.fst) →
    List.Chain (fun a b => a ≤ b) m.prevNetTx
      ((netReads m.config.Interface srcs).map Prod.snd) →
    (runTicks m srcs).1.config = m.config ∧
    m.prevNetRx + ((runTicks m srcs).2.map Prod.fst).sum = (runTicks m srcs).1.prevNetRx ∧
    m.prevNetTx + ((runTicks m srcs).2.map Prod.snd).sum = (runTicks m srcs).1.prevNetTx ∧
    (runTicks m srcs).1.prevNetRx
      = ((netReads m.config.Interface srcs).map Prod.fst).getLastD m.prevNetRx ∧
    (runTicks m srcs).1.prevNetTx
      = ((netReads m.config.Interface srcs).map Prod.snd).getLastD m.prevNetTx := by
  intro srcs
  induction srcs with
  | nil => intro m _ _; exact ⟨rfl, rfl, rfl, rfl, rfl⟩
  | cons src rest ih =>
    intro m hrx htx
    simp only [netReads, List.map_cons, List.chain_cons] at hrx htx
    obtain ⟨h1, h2, h3, h4, h5⟩ := ih (collectStats m src).1 hrx.2 htx.2
    have hb := getNetworkStats_lt m.config.Interface src.netDev
    have d1 : (tickDelta m src).1
        = (getNetworkStats m.config.Interface src.netDev).1 - m.prevNetRx :=
      subU64_of_le hrx.1 hb.1
    have d2 : (tickDelta m src).2
        = (getNetworkStats m.config.Interface src.netDev).2 - m.prevNetTx :=
      subU64_of_le htx.1 hb.2
    have e1 : (collectStats m src).1.prevNetRx
        = (getNetworkStats m.config.Interface src.netDev).1 := rfl
    have e2 : (collectStats m src).1.prevNetTx
        = (getNetworkStats m.config.Interface src.netDev).2 := rfl
    have e3 : (collectStats m src).1.config = m.config := rfl
    have r1 : (runTicks m (src :: rest)).1 = (runTicks (collectStats m src).1 rest).1 := rfl
    have r2 : (runTicks m (src :: rest)).2
        = tickDelta m src :: (runTicks (collectStats m src).1 rest).2 := rfl
    rw [r1, r2]
    simp only [List.map_cons, List.sum_cons, netReads, List.getLastD_cons]
    rw [e1] at h2 h4
    rw [e2] at h3 h5
    rw [e3] at h1 h4 h5
    simp only [netReads] at h4 h5
    have hx := hrx.1
    have hy := htx.1
    refine ⟨h1, ?_, ?_, h4, h5⟩
    · rw [d1]; omega
    · rw [d2]; omega

/-- C16: after `collectStats` the stored baseline is the read of that tick
(`prevNetRx`, `prevNetTx` the network counters, `prevCPUStat` the CPU ticks) and the
configuration is unchanged, as after `initStats`; hence over consecutive ticks whose
reads never fall, the baseline plus the sum of the per-tick byte differences is the
final baseline, which is the last read. -/
theorem collectStats_baseline (m : Monitor) (srcs : List Sources)
    (hrx : List.Chain (fun a b => a ≤ b) m.prevNetRx
      ((netReads m.config.Interface srcs).map Prod.fst))
    (htx : List.Chain (fun a b => a ≤ b) m.prevNetTx
      ((netReads m.config.Interface srcs).map Prod.snd)) :
    (∀ (m0 : Monitor) (src : Sources),
      (collectStats m0 src).1.prevNetRx = (getNetworkStats m0.config.Interface src.netDev).1 ∧
      (collectStats m0 src).1.prevNetTx = (getNetworkStats m0.config.Interface src.netDev).2 ∧
      (collectStats m0 src).1.prevCPUStat = getCPUStats src.stat ∧
      (collectStats m0 src).1.config = m0.config ∧
      (collectStats m0 src).2.currNetRx = (collectStats m0 src).1.prevNetRx ∧
      (collectStats m0 src).2.currNetTx = (collectStats m0 src).1.prevNetTx ∧
      (initStats m0 src).prevNetRx = (getNetworkStats m0.config.Interface src.netDev).1 ∧
      (initStats m0 src).prevNetTx = (getNetworkStats m0.config.Interface src.netDev).2 ∧
      (initStats m0 src).prevCPUStat = getCPUStats src.stat ∧
      (initStats m0 src).config = m0.config) ∧
    (runTicks m srcs).1.config = m.config ∧
    ((runTicks m srcs).2.map Prod.fst).sum
      = ((netReads m.config.Interface srcs).map Prod.fst).getLastD m.prevNetRx - m.prevNetRx ∧
    ((runTicks m srcs).2.map Prod.snd).sum
      = ((netReads m.config.Interface srcs).map Prod.snd).getLastD m.prevNetTx - m.prevNetTx ∧
    (runTicks m srcs).1.prevNetRx
      = ((netReads m.config.Interface srcs).map Prod.fst).getLastD m.prevNetRx ∧
    (runTicks m srcs).1.prevNetTx
      = ((netReads m.config.Interface srcs).map Prod.snd).getLastD m.prevNetTx := by
  obtain ⟨h1, h2, h3, h4, h5⟩ := runTicks_sum srcs m hrx htx
  refine ⟨fun m0 src => ⟨rfl, rfl, rfl, rfl, rfl, rfl, rfl, rfl, rfl, rfl⟩, h1, ?_, ?_, h4, h5⟩
  · rw [← h4]; omega
  · rw [← h5]; omega

/-- C16 (witness): from the baseline (333, 444) of `eth0`, one tick that reads
(1333, 2444): the received-byte differences add up to the last read minus 333. -/
theorem collectStats_baseline_witness :
    ((runTicks stateEth0.em.monitor [⟨some netDevLater, none⟩]).2.map Prod.fst).sum
      = ((netReads stateEth0.em.monitor.config.Interface
            [⟨some netDevLater, none⟩]).map Prod.fst).getLastD
          stateEth0.em.monitor.prevNetRx - stateEth0.em.monitor.prevNetRx :=
  (collectStats_baseline stateEth0.em.monitor [⟨some netDevLater, none⟩]
    (show List.Chain (fun a b => a ≤ b) stateEth0.em.monitor.prevNetRx
        [(getNetworkStats stateEth0.em.monitor.config.Interface (some netDevLater)).1]
      from List.Chain.cons (by decide!) List.Chain.nil)
    (show List.Chain (fun a b => a ≤ b) stateEth0.em.monitor.prevNetTx
        [(getNetworkStats stateEth0.em.monitor.config.Interface (some netDevLater)).2]
      from List.Chain.cons (by decide!) List.Chain.nil)).2.2.1


/-! ## CPU usage of advancing counters (C17) -/

theorem diffs_of_monotone (prev curr : CPUStat)
    (hUser : prev.User ≤ curr.User) (hNice : prev.Nice ≤ curr.Nice)
    (hSystem : prev.System ≤ curr.System) (hIdle : prev.Idle ≤ curr.Idle)
    (hIowait : prev.Iowait ≤ curr.Iowait) (hIrq : prev.Irq ≤ curr.Irq)
    (hSoftirq : prev.Softirq ≤ curr.Softirq)
    (hsum : curr.User + curr.Nice + curr.System + curr.Idle + curr.Iowait + curr.Irq
      + curr.Softirq < 2 ^ 64) :
    (totalDiff prev curr : ℤ) = totalDelta prev curr ∧
    (idleDiff prev curr : ℤ) = idleDelta prev curr ∧
    idleDiff prev curr ≤ totalDiff prev curr := by
  have hT : (totalDiff prev curr : ℤ) = totalDelta prev curr := by
    unfold totalDiff subU64 totalDelta
    rw [cpuTotal_eq, cpuTotal_eq]
    omega
  have hI : (idleDiff prev curr : ℤ) = idleDelta prev curr := by
    unfold idleDiff subU64 idleDelta
    rw [cpuIdle_eq, cpuIdle_eq]
    omega
  refine ⟨hT, hI, ?_⟩
  have hT' := hT
  have hI' := hI
  unfold totalDelta at hT'
  unfold idleDelta at hI'
  omega

theorem usage_small (prev curr : CPUStat) (hne : totalDiff prev curr ≠ 0)
    (hle : idleDiff prev curr ≤ totalDiff prev curr)
    (hsmall : totalDiff prev curr * 100 < 2 ^ 53) :
    calculateCPUUsage prev curr
      = f64round ((((totalDiff prev curr - idleDiff prev curr) * 100 : ℕ) : ℚ)
          / (totalDiff prev curr : ℚ)) := by
  have ht : totalDiff prev curr < 2 ^ 64 := subU64_lt _ _
  rw [calculateCPUUsage_eq, if_neg hne, subU64_of_le hle ht,
    ofNat_exact _ (by omega), ofNat_exact _ (by omega)]
  have e1 : F64.mul (F64.fin ((totalDiff prev curr - idleDiff prev curr : ℕ) : ℚ))
      (F64.fin 100)
      = F64.ofNat ((totalDiff prev curr - idleDiff prev curr) * 100) := by
    simp [F64.mul, F64.ofNat]
  rw [e1, ofNat_exact _ (by omega)]
  have htq : (0 : ℚ) < (totalDiff prev curr : ℚ) := by
    exact_mod_cast Nat.pos_of_ne_zero hne
  simp [F64.div, htq.ne.symm]

theorem f64roundQ_below_hundred :
    f64roundQ (100 - 1 / 2 ^ 46) = 100 - 1 / 2 ^ 46 := by
  have h := f64roundQ_exact 7036874417766399 (-46) (by norm_num) (by norm_num)
  have e : ((7036874417766399 : ℤ) : ℚ) * 2 ^ (-46 : ℤ) = 100 - 1 / 2 ^ 46 := by norm_num
  rwa [e] at h

/-- C17 (counterexample): all counters advance and no sum overflows.  First pair:
idle and iowait did not advance and `totalDelta = 5764607523034237`, yet the usage is
`100 + 2 ^ -46`, above 100.  Second pair: idle advanced by 1 of `2 ^ 60` ticks, yet the
usage is exactly 100. -/
theorem calculateCPUUsage_monotone_fails :
    totalDelta ⟨1000, 0, 0, 5000, 0, 0, 0⟩ ⟨5764607523035237, 0, 0, 5000, 0, 0, 0⟩
      = 5764607523034237 ∧
    idleDelta ⟨1000, 0, 0, 5000, 0, 0, 0⟩ ⟨5764607523035237, 0, 0, 5000, 0, 0, 0⟩ = 0 ∧
    calculateCPUUsage ⟨1000, 0, 0, 5000, 0, 0, 0⟩ ⟨5764607523035237, 0, 0, 5000, 0, 0, 0⟩
      = F64.fin (100 + 1 / 2 ^ 46) ∧
    idleDelta ⟨0, 0, 0, 0, 0, 0, 0⟩ ⟨1152921504606846975, 0, 0, 1, 0, 0, 0⟩ = 1 ∧
    totalDelta ⟨0, 0, 0, 0, 0, 0, 0⟩ ⟨1152921504606846975, 0, 0, 1, 0, 0, 0⟩ = 2 ^ 60 ∧
    calculateCPUUsage ⟨0, 0, 0, 0, 0, 0, 0⟩ ⟨1152921504606846975, 0, 0, 1, 0, 0, 0⟩
      = F64.fin 100 := by
  decide!

/-- C17 (amended): when each of the seven counters of `curr` is at least that of
`prev`, the sum of the current counters is below `2 ^ 64` and
`100 * totalDelta < 2 ^ 53`, then `0 ≤ idleDelta ≤ totalDelta`, the usage lies in
`[0, 100]`, it is 100 exactly when `totalDelta > 0` and idle and iowait did not
advance, and it is 0 when only idle and iowait advanced. -/
theorem calculateCPUUsage_monotone (prev curr : CPUStat)
    (hUser : prev.User ≤ curr.User) (hNice : prev.Nice ≤ curr.Nice)
    (hSystem : prev.System ≤ curr.System) (hIdle : prev.Idle ≤ curr.Idle)
    (hIowait : prev.Iowait ≤ curr.Iowait) (hIrq : prev.Irq ≤ curr.Irq)
    (hSoftirq : prev.Softirq ≤ curr.Softirq)
    (hsum : curr.User + curr.Nice + curr.System + curr.Idle + curr.Iowait + curr.Irq
      + curr.Softirq < 2 ^ 64)
    (hsmall : 100 * totalDelta prev curr < 2 ^ 53) :
    0 ≤ idleDelta prev curr ∧ idleDelta prev curr ≤ totalDelta prev curr ∧
    (∃ r, calculateCPUUsage prev curr = F64.fin r ∧ 0 ≤ r ∧ r ≤ 100) ∧
    (calculateCPUUsage prev curr = F64.fin 100 ↔
      0 < totalDelta prev curr ∧ curr.Idle = prev.Idle ∧ curr.Iowait = prev.Iowait) ∧
    (curr.User = prev.User → curr.Nice = prev.Nice → curr.System = prev.System →
      curr.Irq = prev.Irq → curr.Softirq = prev.Softirq →
      calculateCPUUsage prev curr = F64.fin 0) := by
  obtain ⟨hT, hI, hle⟩ := diffs_of_monotone prev curr hUser hNice hSystem hIdle hIowait hIrq
    hSoftirq hsum
  have hI0 : 0 ≤ idleDelta prev curr := by rw [← hI]; positivity
  have hIT : idleDelta prev curr ≤ totalDelta prev curr := by
    rw [← hI, ← hT]; exact_mod_cast hle
  have hs : totalDiff prev curr * 100 < 2 ^ 53 := by
    rw [← hT] at hsmall
    omega
  have hidle : idleDelta prev curr = 0 ↔ (curr.Idle = prev.Idle ∧ curr.Iowait = prev.Iowait) := by
    unfold idleDelta
    omega
  have hrest : curr.User = prev.User → curr.Nice = prev.Nice → curr.System = prev.System →
      curr.Irq = prev.Irq → curr.Softirq = prev.Softirq →
      totalDelta prev curr = idleDelta prev curr := by
    intro h1 h2 h3 h4 h5
    unfold totalDelta idleDelta
    omega
  by_cases hne : totalDiff prev curr = 0
  · -- no tick elapsed
    have hz : calculateCPUUsage prev curr = F64.fin 0 := by
      rw [calculateCPUUsage_eq, if_pos hne]
    have hT0 : totalDelta prev curr = 0 := by rw [← hT, hne]; rfl
    refine ⟨hI0, hIT, ⟨0, hz, le_rfl, by norm_num⟩, ?_, fun _ _ _ _ _ => hz⟩
    rw [hz]
    constructor
    · intro h
      injection h with h
      norm_num at h
    · intro h
      omega
  · have hu := usage_small prev curr hne hle hs
    have htq : (0 : ℚ) < (totalDiff prev curr : ℚ) := by
      exact_mod_cast Nat.pos_of_ne_zero hne
    have hq0 : (0 : ℚ) ≤ (((totalDiff prev curr - idleDiff prev curr) * 100 : ℕ) : ℚ)
        / (totalDiff prev curr : ℚ) := by positivity
    have hq100 : (((totalDiff prev curr - idleDiff prev curr) * 100 : ℕ) : ℚ)
        / (totalDiff prev curr : ℚ) ≤ 100 := by
      rw [div_le_iff₀ htq]
      have : (totalDiff prev curr - idleDiff prev curr) * 100 ≤ 100 * totalDiff prev curr := by
        omega
      exact_mod_cast this
    have hTpos : 0 < totalDelta prev curr := by
      rw [← hT]
      exact_mod_cast Nat.pos_of_ne_zero hne
    refine ⟨hI0, hIT, ?_, ?_, ?_⟩
    · obtain ⟨r, hr, hr0, hr1⟩ := f64round_le_of_le hq0 hq100 f64roundQ_hundred (by norm_num)
      exact ⟨r, hu.trans hr, hr0, hr1⟩
    · rw [← hidle]
      constructor
      · intro h100
        refine ⟨hTpos, ?_⟩
        by_contra hi
        have hi1 : 1 ≤ idleDiff prev curr := by
          have : idleDelta prev curr ≠ 0 := hi
          rw [← hI] at this
          have : idleDiff prev curr ≠ 0 := by exact_mod_cast this
          omega
        have hqlt : (((totalDiff prev curr - idleDiff prev curr) * 100 : ℕ) : ℚ)
            / (totalDiff prev curr : ℚ) ≤ 100 - 1 / 2 ^ 46 := by
          rw [div_le_iff₀ htq, Nat.cast_mul, Nat.cast_sub hle]
          have h1 : (1 : ℚ) ≤ (idleDiff prev curr : ℚ) := by exact_mod_cast hi1
          have h2 : (totalDiff prev curr : ℚ) * 100 < 2 ^ 53 := by exact_mod_cast hs
          have h3 : (1 : ℚ) / 2 ^ 46 * (totalDiff prev curr : ℚ) ≤ 100 := by
            have : (1 : ℚ) / 2 ^ 46 * (totalDiff prev curr : ℚ)
                = (totalDiff prev curr : ℚ) * 100 / (100 * 2 ^ 46) := by ring
            rw [this, div_le_iff₀ (by norm_num)]
            have : (2 : ℚ) ^ 53 ≤ 100 * (100 * 2 ^ 46) := by norm_num
            linarith
          push_cast
          linarith
        obtain ⟨r, hr, -, hr1⟩ := f64round_le_of_le hq0 hqlt f64roundQ_below_hundred
          (by norm_num)
        rw [hu, hr] at h100
        injection h100 with h100
        rw [h100] at hr1
        norm_num at hr1
      · rintro ⟨-, hi⟩
        have hi0 : idleDiff prev curr = 0 := by
          rw [← hI] at hi
          exact_mod_cast hi
        have e : (((totalDiff prev curr - idleDiff prev curr) * 100 : ℕ) : ℚ)
            / (totalDiff prev curr : ℚ) = 100 := by
          rw [hi0, Nat.sub_zero, Nat.cast_mul]
          field_simp
        rw [hu, e]
        have := f64round_int_exact 100 (by norm_num)
        simpa using this
    · intro h1 h2 h3 h4 h5
      have heq := hrest h1 h2 h3 h4 h5
      have hd : totalDiff prev curr = idleDiff prev curr := by
        rw [← hT, ← hI] at heq
        exact_mod_cast heq
      rw [hu, hd, Nat.sub_self]
      simp [f64round]

/-- C17 (witness): 20 busy ticks out of 100. -/
theorem calculateCPUUsage_monotone_witness :
    ∃ r, calculateCPUUsage ⟨10, 0, 0, 90, 0, 0, 0⟩ ⟨30, 0, 0, 170, 0, 0, 0⟩ = F64.fin r
      ∧ 0 ≤ r ∧ r ≤ 100 :=
  (calculateCPUUsage_monotone ⟨10, 0, 0, 90, 0, 0, 0⟩ ⟨30, 0, 0, 170, 0, 0, 0⟩ (by decide)
    (by decide) (by decide) (by decide) (by decide) (by decide) (by decide) (by decide)
    (by decide)).2.2.1


/-! ## Agreement of the selection copies (C18) -/

/-- A tick changes no copy of the selection and leaves the handlers in progress as
they are. -/
theorem act_tick_selection (y : Sys) (src : Sources) :
    (act y (Action.tick src)).inflight = y.inflight ∧
    (act y (Action.tick src)).state.currentSelectedInterface
      = y.state.currentSelectedInterface ∧
    (act y (Action.tick src)).state.em.config = y.state.em.config ∧
    (act y (Action.tick src)).state.em.monitor.config = y.state.em.monitor.config :=
  ⟨rfl, rfl, rfl, rfl⟩

/-- While a handler is in progress the copies differ: from the startup on
`netDevThree`, which selects `veth0`, after line 652 of an accepted request for `eth0`
the copy of the web server is `eth0` and the two others are still `veth0`. -/
theorem selection_copies_differ_in_handler :
    (exec ⟨startup 8080 (some netDevThree) ⟨some netDevThree, none⟩, []⟩
      [Action.arrive ⟨"POST".toList, some "eth0".toList⟩ (some netDevThree),
       Action.advance 0 (some netDevThree)]).inflight
      = [⟨"eth0".toList, HandlerLine.l653⟩] ∧
    (exec ⟨startup 8080 (some netDevThree) ⟨some netDevThree, none⟩, []⟩
      [Action.arrive ⟨"POST".toList, some "eth0".toList⟩ (some netDevThree),
       Action.advance 0 (some netDevThree)]).state.em.config.Interface = "eth0".toList ∧
    (exec ⟨startup 8080 (some netDevThree) ⟨some netDevThree, none⟩, []⟩
      [Action.arrive ⟨"POST".toList, some "eth0".toList⟩ (some netDevThree),
       Action.advance 0 (some netDevThree)]).state.em.monitor.config.Interface
      = "veth0".toList ∧
    getSelectedInterface (exec ⟨startup 8080 (some netDevThree) ⟨some netDevThree, none⟩, []⟩
      [Action.arrive ⟨"POST".toList, some "eth0".toList⟩ (some netDevThree),
       Action.advance 0 (some netDevThree)]).state = "veth0".toList := by
  decide!

/-- A handler whose lines run with nothing in between does what `switchInterface`
does. -/
theorem exec_handler_alone (s : State) (req : SwitchRequest)
    (listing reading : Option (List Char)) :
    exec ⟨s, []⟩
        [Action.arrive req listing, Action.advance 0 reading, Action.advance 0 reading,
         Action.advance 0 reading, Action.advance 0 reading]
      = ⟨(switchInterface s req listing reading).1, []⟩ := by
  by_cases hm : req.method = "POST".toList
  · cases hb : req.body with
    | none =>
      have e1 : arriveHandler req listing = none := by
        unfold arriveHandler; rw [hb]; simp [hm]
      have e2 : (switchInterface s req listing reading).1 = s := by
        unfold switchInterface; rw [hb]; simp only [hm]; rfl
      rw [e2]
      simp [exec, act, e1]
    | some name =>
      by_cases hn : name ∈ getAvailableInterfaces listing
      · have hv : validInterface name (getAvailableInterfaces listing) = true :=
          (validInterface_iff _ _).2 hn
        have e1 : arriveHandler req listing = some ⟨name, HandlerLine.l652⟩ := by
          unfold arriveHandler; rw [hb]; simp [hm, hv]
        rw [switchInterface_valid s req listing reading name hm hb hn]
        simp only [exec, List.foldl_cons, List.foldl_nil, act, e1, List.nil_append]
        rfl
      · have hv : validInterface name (getAvailableInterfaces listing) = false := by
          rw [Bool.eq_false_iff]
          intro h
          exact hn ((validInterface_iff _ _).1 h)
        have e1 : arriveHandler req listing = none := by
          unfold arriveHandler; rw [hb]; simp [hm, hv]
        have e2 : (switchInterface s req listing reading).1 = s := by
          unfold switchInterface; rw [hb]; simp only [hm, hv]; rfl
        rw [e2]
        simp [exec, act, e1]
  · have e1 : arriveHandler req listing = none := by
      unfold arriveHandler; rw [if_pos hm]
    have e2 : (switchInterface s req listing reading).1 = s := by
      unfold switchInterface; rw [if_pos hm]
    rw [e2]
    simp [exec, act, e1]

end Sysmon
